import Mathlib

/-!
# Verified model of the ColorHash color-derivation and image-matching core

This file is a shallow embedding, in Lean 4, of the algorithmic core of the
ColorHash repository:

* the hex-token scanner and normalizer (`parseHexColors`, `normalizeHex`
  in `src/lib/color-utils.ts`),
* Euclidean RGB color distance and the match predicate (`colorDistance`,
  `isColorMatch`),
* the 9-slot derived-palette construction used per image
  (`buildDerivedPalette` and the `buildDominantColorsFrom*` normalizers in
  `src/lib/image-api.ts`),
* the `/api/search-images` route (`POST`): provider fan-out, per-image
  normalization and color filtering, scoring by distance from the image's
  primary color, and the ascending stable sort,
* the tinycolor2-backed color utilities (`ensureContrast`, `getContrastRatio`,
  HSL conversions, `lighten`/`darken`/`saturate`/`spin`, `generateHarmony`,
  `generateShades`, `generateTints`, `applyVibeToPalette`, `getColorName`),
* the role-assignment routine `applyFromBase` of the palette page.

Modelling conventions:

* JavaScript strings are `List Char`; hex color strings keep their exact
  character content.
* JavaScript numbers are modelled exactly: integer color channels are `ℤ`,
  intermediate tinycolor channel values are `ℚ` (tinycolor2 keeps unrounded
  float channels between operations; we idealize floats as exact rationals),
  and the WCAG relative-luminance computation, which raises to the real
  exponent 2.4, lives in `ℝ`.
* `Math.round x` is `⌊x + 1/2⌋`, as in JavaScript.
* Functions that perform network I/O are modelled as oracles: the route takes
  the three provider search functions as an explicit argument, and a provider
  adapter takes the outcome of its HTTP transport as an `Except` value.
-/

set_option maxHeartbeats 1000000

namespace ColorHash

/-! ## Hex-token scanning (`src/lib/color-utils.ts`) -/

/-- One character of `[0-9A-Fa-f]`, the character class used by both the
`parseHexColors` scanner regex and the `normalizeHex` validation regexes. -/
def isHexDigitCh (c : Char) : Bool :=
  (('0' ≤ c && c ≤ '9') || ('a' ≤ c && c ≤ 'f') || ('A' ≤ c && c ≤ 'F'))

/-- Numeric value of a hex digit (used when converting hex strings to RGB). -/
def hexVal (c : Char) : ℤ :=
  if '0' ≤ c ∧ c ≤ '9' then (c.toNat : ℤ) - ('0'.toNat : ℤ)
  else if 'a' ≤ c ∧ c ≤ 'f' then (c.toNat : ℤ) - ('a'.toNat : ℤ) + 10
  else if 'A' ≤ c ∧ c ≤ 'F' then (c.toNat : ℤ) - ('A'.toNat : ℤ) + 10
  else 0

/-- Length of the maximal run of hex digits at the head of the list. -/
def hexRunLen : List Char → ℕ
  | [] => 0
  | c :: rest => if isHexDigitCh c then hexRunLen rest + 1 else 0

/-- Worker for the scan of `/#?[0-9A-Fa-f]{3,6}/g`; the fuel argument only
serves structural recursion and is always at least the list length. -/
def scanHexTokensAux : ℕ → List Char → List (List Char)
  | _, [] => []
  | 0, _ :: _ => []
  | fuel + 1, c :: rest =>
    if c = '#' then
      if 3 ≤ hexRunLen rest then
        (c :: rest.take (min (hexRunLen rest) 6)) ::
          scanHexTokensAux fuel (rest.drop (min (hexRunLen rest) 6))
      else
        scanHexTokensAux fuel rest
    else
      if isHexDigitCh c = true ∧ 3 ≤ hexRunLen (c :: rest) then
        ((c :: rest).take (min (hexRunLen (c :: rest)) 6)) ::
          scanHexTokensAux fuel (rest.drop (min (hexRunLen (c :: rest)) 6 - 1))
      else
        scanHexTokensAux fuel rest

/-- The global scan of the regex `/#?[0-9A-Fa-f]{3,6}/g` over a string, as
performed by `input.match(hexPattern)` in `parseHexColors`.  At each
position, a match requires an optional `#` followed by a greedy run of 3 to
6 hex digits; on success the scan resumes after the match, on failure it
advances one character.  (A `#` followed by fewer than 3 hex digits cannot
match: backtracking the optional `#` fails because `#` is not a hex digit.) -/
def scanHexTokens (l : List Char) : List (List Char) :=
  scanHexTokensAux l.length l

/-- `String.prototype.trim`: drop whitespace from both ends (the tokens fed
to `normalizeHex` by `parseHexColors` never contain whitespace). -/
def jsTrim (s : List Char) : List Char :=
  (((s.dropWhile Char.isWhitespace).reverse).dropWhile Char.isWhitespace).reverse

/-- `hex.trim().replace(/^#/, '')`: remove at most one leading `#`. -/
def stripHash (s : List Char) : List Char :=
  if s.head? = some '#' then s.tail else s

/-- `normalizeHex` from `src/lib/color-utils.ts`: trim, strip one leading
`#`, then accept exactly 3 hex digits (each doubled) or exactly 6 hex
digits; anything else yields `none`. -/
def normalizeHex (s : List Char) : Option (List Char) :=
  let cleaned := stripHash (jsTrim s)
  if cleaned.length = 3 ∧ cleaned.all isHexDigitCh then
    some ('#' :: cleaned.flatMap (fun c => [c, c]))
  else if cleaned.length = 6 ∧ cleaned.all isHexDigitCh then
    some ('#' :: cleaned)
  else
    none

/-- `parseHexColors` from `src/lib/color-utils.ts`: scan the input for
`#?[0-9A-Fa-f]{3,6}` tokens, normalize each, silently dropping the
invalid ones. -/
def parseHexColors (input : List Char) : List (List Char) :=
  (scanHexTokens input).filterMap normalizeHex

/-! ### Supporting lemmas about the scanner -/

theorem isHexDigitCh_not_whitespace {c : Char} (h : isHexDigitCh c = true) :
    c.isWhitespace = false := by
  simp only [isHexDigitCh, Bool.or_eq_true, Bool.and_eq_true, decide_eq_true_eq] at h
  simp only [Char.isWhitespace, Bool.or_eq_false_iff, decide_eq_false_iff_not]
  rcases h with (⟨h1, h2⟩ | ⟨h1, h2⟩) | ⟨h1, h2⟩ <;>
    refine ⟨⟨⟨?_, ?_⟩, ?_⟩, ?_⟩ <;>
    · intro hc
      rw [hc] at h1
      exact absurd h1 (by decide)

theorem isHexDigitCh_ne_hash {c : Char} (h : isHexDigitCh c = true) : c ≠ '#' := by
  intro hc
  rw [hc] at h
  exact absurd h (by decide)

theorem jsTrim_of_all_hex {l : List Char} (h : l.all isHexDigitCh = true) :
    jsTrim l = l := by
  have hdrop : ∀ m : List Char, m.all isHexDigitCh = true →
      m.dropWhile Char.isWhitespace = m := by
    intro m hm
    cases m with
    | nil => rfl
    | cons c rest =>
      simp only [List.all_cons, Bool.and_eq_true] at hm
      simp [List.dropWhile_cons, isHexDigitCh_not_whitespace hm.1]
  unfold jsTrim
  rw [hdrop l h]
  rw [hdrop l.reverse (by simpa using h)]
  exact l.reverse_reverse

theorem hexRunLen_eq_length {l : List Char} (h : l.all isHexDigitCh = true) :
    hexRunLen l = l.length := by
  induction l with
  | nil => rfl
  | cons c rest ih =>
    simp only [List.all_cons, Bool.and_eq_true] at h
    simp [hexRunLen, h.1, ih h.2]

theorem scanHexTokensAux_all_hex {l : List Char} {fuel : ℕ}
    (hall : l.all isHexDigitCh = true) (hfuel : l.length ≤ fuel + 1)
    (hlen3 : 3 ≤ l.length) (hlen6 : l.length ≤ 6) :
    scanHexTokensAux (fuel + 1) l = [l] := by
  match l with
  | [] => simp at hlen3
  | c :: rest =>
    simp only [List.all_cons, Bool.and_eq_true] at hall
    have hrun : hexRunLen (c :: rest) = rest.length + 1 := by
      have hh : (c :: rest).all isHexDigitCh = true := by simp [hall.1, hall.2]
      simpa using hexRunLen_eq_length hh
    have hcne : ¬ c = '#' := isHexDigitCh_ne_hash hall.1
    rw [scanHexTokensAux, if_neg hcne]
    have hcond : isHexDigitCh c = true ∧ 3 ≤ hexRunLen (c :: rest) := by
      refine ⟨hall.1, ?_⟩
      rw [hrun]; simpa using hlen3
    rw [if_pos hcond]
    have hmin : min (hexRunLen (c :: rest)) 6 = rest.length + 1 := by
      rw [hrun]
      simp only [List.length_cons] at hlen6
      omega
    rw [hmin]
    have htake : (c :: rest).take (rest.length + 1) = c :: rest := by
      apply List.take_of_length_le; simp
    have hdrop : rest.drop (rest.length + 1 - 1) = ([] : List Char) := by simp
    rw [htake, hdrop]
    cases fuel <;> rfl

theorem scanHexTokens_all_hex {l : List Char}
    (hall : l.all isHexDigitCh = true) (hlen3 : 3 ≤ l.length)
    (hlen6 : l.length ≤ 6) : scanHexTokens l = [l] := by
  unfold scanHexTokens
  obtain ⟨n, hn⟩ : ∃ n, l.length = n + 1 := by
    cases hl : l.length with
    | zero => omega
    | succ k => exact ⟨k, rfl⟩
  rw [hn]
  exact scanHexTokensAux_all_hex hall (by omega) hlen3 hlen6

theorem normalizeHex_of_all_hex_len45 {l : List Char}
    (hall : l.all isHexDigitCh = true) (h45 : l.length = 4 ∨ l.length = 5) :
    normalizeHex l = none := by
  have htrim : jsTrim l = l := jsTrim_of_all_hex hall
  have hstrip : stripHash l = l := by
    unfold stripHash
    cases l with
    | nil => rfl
    | cons c rest =>
      have : ¬ c = '#' := isHexDigitCh_ne_hash (by
        simp only [List.all_cons, Bool.and_eq_true] at hall
        exact hall.1)
      simp [this]
  unfold normalizeHex
  rw [htrim, hstrip]
  rcases h45 with h | h <;> simp [h]

end ColorHash

namespace ColorHash

/-! ## RGB triples and hex conversion -/

/-- An RGB triple of integer channels, the `{ r, g, b }` object shape of
`ColorRGB` in `src/lib/color-utils.ts`. -/
structure ColorRGB where
  r : ℤ
  g : ℤ
  b : ℤ
deriving DecidableEq

/-- Numeric value of a two-hex-digit pair. -/
def hexPair (c1 c2 : Char) : ℤ := 16 * hexVal c1 + hexVal c2

/-- Parse a six-hex-digit body into an RGB triple. -/
def parseHexBody6 (body : List Char) : ColorRGB :=
  match body with
  | [a, b2, c, d, e, f] => ⟨hexPair a b2, hexPair c d, hexPair e f⟩
  | _ => ⟨0, 0, 0⟩

/-- Model of `hexToRgb` from `src/lib/color-utils.ts`, which is backed by
`tinycolor(hex).toRgb()`.  For the inputs that occur in the modelled code
paths (strings of 3 or 6 hex digits with an optional leading `#`), tinycolor
parses them case-insensitively, expanding each digit of a 3-digit form; on
any unparsable input tinycolor falls back to black `{r: 0, g: 0, b: 0}`.
Other tinycolor input formats (named colors, `rgb()` strings, 8-digit hex)
never reach this function in the modelled code. -/
def hexToRgb (s : List Char) : ColorRGB :=
  let body := stripHash s
  if body.length = 6 ∧ body.all isHexDigitCh then parseHexBody6 body
  else if body.length = 3 ∧ body.all isHexDigitCh then
    match body with
    | [a, b2, c] => ⟨hexPair a a, hexPair b2 b2, hexPair c c⟩
    | _ => ⟨0, 0, 0⟩
  else ⟨0, 0, 0⟩

/-- The local `hexToRgb` helper of `src/lib/image-api.ts` (duplicated in
`generate-palette/route.ts`): the regex accepts exactly six hex digits with
an optional `#`, anything else falls back to black. -/
def hexToRgbIA (s : List Char) : ColorRGB :=
  let body := stripHash s
  if body.length = 6 ∧ body.all isHexDigitCh then parseHexBody6 body
  else ⟨0, 0, 0⟩

/-- Lower-case hex digit of a value in `[0, 15]`. -/
def hexDigitOfVal (v : ℤ) : Char :=
  if v < 10 then Char.ofNat ('0'.toNat + v.toNat) else Char.ofNat ('a'.toNat + (v.toNat - 10))

/-- Two lower-case hex digits of a channel value in `[0, 255]`. -/
def twoHexDigits (v : ℤ) : List Char := [hexDigitOfVal (v / 16 % 16), hexDigitOfVal (v % 16)]

/-- The local `rgbToHex` helper of `src/lib/image-api.ts`:
`'#' + ((1 << 24) + (r << 16) + (g << 8) + b).toString(16).slice(1)`, i.e.
`#` followed by six lower-case hex digits.  The same digit expansion is what
tinycolor's `toHexString()` produces for integer channels. -/
def rgbToHex (c : ColorRGB) : List Char :=
  '#' :: (twoHexDigits c.r ++ twoHexDigits c.g ++ twoHexDigits c.b)

/-- JavaScript `Math.round`: half-up rounding, `⌊x + 1/2⌋`. -/
def jsRoundQ (x : ℚ) : ℤ := ⌊x + 1 / 2⌋

/-- JavaScript clamp `Math.max(0, Math.min(255, x))` used by the palette
adjustment helpers. -/
def clamp255 (x : ℚ) : ℚ := max 0 (min 255 x)

/-! ## Euclidean RGB distance and the match predicate -/

/-- Squared Euclidean distance between two RGB triples (an exact integer). -/
def distSq (c1 c2 : ColorRGB) : ℤ :=
  (c1.r - c2.r) ^ 2 + (c1.g - c2.g) ^ 2 + (c1.b - c2.b) ^ 2

/-- Model of `colorDistance` from `src/lib/color-utils.ts`: Euclidean distance
in RGB space, `Math.sqrt(rDiff² + gDiff² + bDiff²)`. -/
noncomputable def colorDistance (c1 c2 : ColorRGB) : ℝ :=
  Real.sqrt ((distSq c1 c2 : ℤ) : ℝ)

/-- Model of `isColorMatch` from `src/lib/color-utils.ts`:
`colorDistance(targetColor, imageColor) <= threshold`. -/
def isColorMatch (targetColor imageColor : ColorRGB) (threshold : ℚ) : Prop :=
  colorDistance targetColor imageColor ≤ (threshold : ℝ)

theorem distSq_nonneg (c1 c2 : ColorRGB) : 0 ≤ distSq c1 c2 := by
  unfold distSq
  positivity

theorem isColorMatch_iff_sq (targetColor imageColor : ColorRGB) (threshold : ℚ) :
    isColorMatch targetColor imageColor threshold ↔
      0 ≤ threshold ∧ (distSq targetColor imageColor : ℚ) ≤ threshold ^ 2 := by
  unfold isColorMatch colorDistance
  rw [Real.sqrt_le_iff]
  constructor
  · rintro ⟨h1, h2⟩
    refine ⟨by exact_mod_cast h1, ?_⟩
    have : ((distSq targetColor imageColor : ℤ) : ℝ) ≤ ((threshold : ℝ)) ^ 2 := h2
    exact_mod_cast this
  · rintro ⟨h1, h2⟩
    refine ⟨by exact_mod_cast h1, ?_⟩
    exact_mod_cast h2

instance decidableIsColorMatch (targetColor imageColor : ColorRGB) (threshold : ℚ) :
    Decidable (isColorMatch targetColor imageColor threshold) :=
  decidable_of_iff _ (isColorMatch_iff_sq targetColor imageColor threshold).symm

end ColorHash

namespace ColorHash

/-! ## tinycolor2 color state and HSL/HSV conversions

A tinycolor instance keeps unrounded channel values between chained
operations; only `toRgb()`/`toHexString()` round.  Hue is kept in turns
(`[0,1)`); tinycolor multiplies by 360 at its public API boundary and
divides by 360 again on object input, so compositions of its own
operations cancel the scaling. -/

/-- Unrounded RGB channel state of a tinycolor instance. -/
structure RGBQ where
  r : ℚ
  g : ℚ
  b : ℚ
deriving DecidableEq

/-- An HSL triple with hue in turns. -/
structure HSLQ where
  h : ℚ
  s : ℚ
  l : ℚ
deriving DecidableEq

/-- An HSV triple with hue in turns. -/
structure HSVQ where
  h : ℚ
  s : ℚ
  v : ℚ
deriving DecidableEq

/-- Clamp into the unit interval (tinycolor's `clamp01`). -/
def clamp01 (x : ℚ) : ℚ := max 0 (min 1 x)

/-- tinycolor's `bound01(n, 255)`: clamp a channel into `[0, 255]` and scale
to `[0, 1]`.  (The float-epsilon special case of `bound01` is a rounding
artifact with no exact-arithmetic counterpart.) -/
def bound255 (x : ℚ) : ℚ := min 255 (max 0 x) / 255

/-- JavaScript truncation toward zero (the integer part used by `%`). -/
def jsTrunc (x : ℚ) : ℤ := if 0 ≤ x then ⌊x⌋ else ⌈x⌉

/-- JavaScript remainder `x % y` (sign follows the dividend). -/
def jsMod (x y : ℚ) : ℚ := x - y * (jsTrunc (x / y) : ℚ)

/-- tinycolor's `rgbToHsl` (hue returned in turns). -/
def rgbToHsl (c : RGBQ) : HSLQ :=
  let r := bound255 c.r
  let g := bound255 c.g
  let b := bound255 c.b
  let M := max r (max g b)
  let m := min r (min g b)
  let l := (M + m) / 2
  if M = m then ⟨0, 0, l⟩
  else
    let d := M - m
    let s := if l > 1 / 2 then d / (2 - M - m) else d / (M + m)
    let hRaw :=
      if M = r then (g - b) / d + (if g < b then 6 else 0)
      else if M = g then (b - r) / d + 2
      else (r - g) / d + 4
    ⟨hRaw / 6, s, l⟩

/-- tinycolor's `hue2rgb` helper. -/
def hue2rgb (p q t0 : ℚ) : ℚ :=
  let t1 := if t0 < 0 then t0 + 1 else t0
  let t := if t1 > 1 then t1 - 1 else t1
  if t < 1 / 6 then p + (q - p) * 6 * t
  else if t < 1 / 2 then q
  else if t < 2 / 3 then p + (q - p) * (2 / 3 - t) * 6
  else p

/-- tinycolor's `hslToRgb` (hue taken in turns; tinycolor's own
`bound01(h, 360)` on degrees becomes `clamp01` on turns). -/
def hslToRgb (hsl : HSLQ) : RGBQ :=
  let h := clamp01 hsl.h
  let s := clamp01 hsl.s
  let l := clamp01 hsl.l
  if s = 0 then ⟨l * 255, l * 255, l * 255⟩
  else
    let q := if l < 1 / 2 then l * (1 + s) else l + s - l * s
    let p := 2 * l - q
    ⟨hue2rgb p q (h + 1 / 3) * 255, hue2rgb p q h * 255, hue2rgb p q (h - 1 / 3) * 255⟩

/-- tinycolor's `rgbToHsv` (hue in turns). -/
def rgbToHsv (c : RGBQ) : HSVQ :=
  let r := bound255 c.r
  let g := bound255 c.g
  let b := bound255 c.b
  let M := max r (max g b)
  let m := min r (min g b)
  let v := M
  let d := M - m
  let s := if M = 0 then 0 else d / M
  if M = m then ⟨0, s, v⟩
  else
    let hRaw :=
      if M = r then (g - b) / d + (if g < b then 6 else 0)
      else if M = g then (b - r) / d + 2
      else (r - g) / d + 4
    ⟨hRaw / 6, s, v⟩

/-- tinycolor's `hsvToRgb` (hue in turns). -/
def hsvToRgb (hsv : HSVQ) : RGBQ :=
  let h := clamp01 hsv.h * 6
  let s := clamp01 hsv.s
  let v := clamp01 hsv.v
  let i := ⌊h⌋
  let f := h - (i : ℚ)
  let p := v * (1 - s)
  let q := v * (1 - f * s)
  let t := v * (1 - (1 - f) * s)
  let md := ((i % 6).toNat : ℕ)
  let r := [v, q, p, p, t, v].getD md 0
  let g := [t, v, v, q, p, p].getD md 0
  let b := [p, p, t, v, v, q].getD md 0
  ⟨r * 255, g * 255, b * 255⟩

/-- Round each channel (`toRgb()` of a tinycolor instance). -/
def roundRGB (c : RGBQ) : ColorRGB := ⟨jsRoundQ c.r, jsRoundQ c.g, jsRoundQ c.b⟩

/-- Inject integer channels into the unrounded state. -/
def ofColorRGB (c : ColorRGB) : RGBQ := ⟨(c.r : ℚ), (c.g : ℚ), (c.b : ℚ)⟩

/-- Parse a hex string into a tinycolor instance (`tinycolor(hex)`). -/
def tcParse (s : List Char) : RGBQ := ofColorRGB (hexToRgb s)

/-- Render a tinycolor instance (`toHexString()`): round, then format. -/
def toHexString (c : RGBQ) : List Char := rgbToHex (roundRGB c)

/-- tinycolor `lighten`: raise HSL lightness by `amount` percentage points. -/
def tcLighten (amount : ℚ) (c : RGBQ) : RGBQ :=
  let hsl := rgbToHsl c
  hslToRgb ⟨hsl.h, hsl.s, clamp01 (hsl.l + amount / 100)⟩

/-- tinycolor `darken`: lower HSL lightness by `amount` percentage points. -/
def tcDarken (amount : ℚ) (c : RGBQ) : RGBQ :=
  let hsl := rgbToHsl c
  hslToRgb ⟨hsl.h, hsl.s, clamp01 (hsl.l - amount / 100)⟩

/-- tinycolor `saturate`. -/
def tcSaturate (amount : ℚ) (c : RGBQ) : RGBQ :=
  let hsl := rgbToHsl c
  hslToRgb ⟨hsl.h, clamp01 (hsl.s + amount / 100), hsl.l⟩

/-- tinycolor `desaturate`. -/
def tcDesaturate (amount : ℚ) (c : RGBQ) : RGBQ :=
  let hsl := rgbToHsl c
  hslToRgb ⟨hsl.h, clamp01 (hsl.s - amount / 100), hsl.l⟩

/-- Rotate the hue by `deg` degrees, wrapping modulo 360 (the common core of
tinycolor's `spin`, `complement`, `_polyad` and `splitcomplement`, which all
set `hsl.h = (hsl.h + deg) % 360` on the degree-scaled hue). -/
def tcSpinHue (deg : ℚ) (c : RGBQ) : RGBQ :=
  let hsl := rgbToHsl c
  let hDeg := jsMod (hsl.h * 360 + deg) 360
  let hDeg2 := if hDeg < 0 then hDeg + 360 else hDeg
  hslToRgb ⟨hDeg2 / 360, hsl.s, hsl.l⟩

/-- tinycolor `getBrightness()` on the rounded channels. -/
def tcBrightness (c : ColorRGB) : ℚ := ((c.r * 299 + c.g * 587 + c.b * 114 : ℤ) : ℚ) / 1000

/-- tinycolor `isDark()`: brightness below 128. -/
def tcIsDark (c : ColorRGB) : Bool := decide (tcBrightness c < 128)

/-- tinycolor `_analogous(color, 3, 30)`: the original color plus hue
rotations of −6° and +6° (computed through the `−18°, +12°, +12°` loop of
the library). -/
def tcAnalogous3 (c : RGBQ) : List RGBQ :=
  let hsl := rgbToHsl c
  let h0 := jsMod (hsl.h * 360 - 18 + 720) 360
  let h1 := jsMod (h0 + 12) 360
  let h2 := jsMod (h1 + 12) 360
  [c, hslToRgb ⟨h1 / 360, hsl.s, hsl.l⟩, hslToRgb ⟨h2 / 360, hsl.s, hsl.l⟩]

/-- Worker for tinycolor `_monochromatic`: repeatedly bump HSV value by
`modification`, wrapping modulo 1. -/
def tcMonoAux (h s modification : ℚ) : ℕ → ℚ → List RGBQ
  | 0, _ => []
  | n + 1, v => hsvToRgb ⟨h, s, v⟩ :: tcMonoAux h s modification n (jsMod (v + modification) 1)

/-- tinycolor `monochromatic(count)`. -/
def tcMonochromatic (c : RGBQ) (count : ℕ) : List RGBQ :=
  let hsv := rgbToHsv c
  tcMonoAux hsv.h hsv.s (1 / (count : ℚ)) count hsv.v

end ColorHash

namespace ColorHash

/-! ## Higher-level color utilities (`src/lib/color-utils.ts`) -/

/-- Output record of `generateHarmony`. -/
structure HarmonyOut where
  complementary : List Char
  analogous : List (List Char)
  triadic : List (List Char)
  splitComplementary : List (List Char)
  monochromatic : List (List Char)
deriving DecidableEq

/-- Model of `generateHarmony` from `src/lib/color-utils.ts`: tinycolor
`complement`, `analogous(3)`, `triad`, `splitcomplement` and
`monochromatic(5)`, each rendered with `toHexString()`. -/
def generateHarmony (baseHex : List Char) : HarmonyOut :=
  let c := tcParse baseHex
  ⟨toHexString (tcSpinHue 180 c),
   (tcAnalogous3 c).map toHexString,
   [c, tcSpinHue 120 c, tcSpinHue 240 c].map toHexString,
   [c, tcSpinHue 72 c, tcSpinHue 216 c].map toHexString,
   (tcMonochromatic c 5).map toHexString⟩

/-- Model of `generateShades`: darken the base by `12 · i` for `i = 1..count`. -/
def generateShades (baseHex : List Char) (count : ℕ) : List (List Char) :=
  (List.range count).map fun i => toHexString (tcDarken (12 * ((i : ℚ) + 1)) (tcParse baseHex))

/-- Model of `generateTints`: lighten the base by `12 · i` for `i = 1..count`. -/
def generateTints (baseHex : List Char) (count : ℕ) : List (List Char) :=
  (List.range count).map fun i => toHexString (tcLighten (12 * ((i : ℚ) + 1)) (tcParse baseHex))

/-- The six design vibes. -/
inductive Vibe where
  | minimal
  | vibrant
  | playful
  | serious
  | editorial
  | retro
deriving DecidableEq

/-- The fixed `(saturationShift, brightnessShift)` table of
`applyVibeToPalette`. -/
def vibeShifts (v : Vibe) : ℚ × ℚ :=
  match v with
  | .minimal => (-20, 10)
  | .vibrant => (30, 5)
  | .playful => (15, 10)
  | .serious => (-10, -10)
  | .editorial => (-5, 0)
  | .retro => (-10, -5)

/-- Output record of `applyVibeToPalette`. -/
structure VibeShiftOut where
  base : List Char
  saturationShift : ℚ
  brightnessShift : ℚ
deriving DecidableEq

/-- Model of `applyVibeToPalette`: saturate or desaturate then lighten or
darken the base color according to the vibe table. -/
def applyVibeToPalette (hex : List Char) (vibe : Vibe) : VibeShiftOut :=
  let saturationShift := (vibeShifts vibe).1
  let brightnessShift := (vibeShifts vibe).2
  let c0 := tcParse hex
  let c1 := if saturationShift > 0 then tcSaturate saturationShift c0
            else tcDesaturate |saturationShift| c0
  let c2 := if brightnessShift > 0 then tcLighten brightnessShift c1
            else tcDarken |brightnessShift| c1
  ⟨toHexString c2, saturationShift, brightnessShift⟩

/-- Model of `getColorName`: bucket a hex color into a small vocabulary by
HSL hue (degrees), saturation and lightness. -/
def getColorName (hex : List Char) : List Char :=
  let hsl := rgbToHsl (tcParse hex)
  let hDeg := hsl.h * 360
  if hsl.l < 3 / 20 then ("black".data)
  else if hsl.l > 17 / 20 then ("white".data)
  else if hsl.s < 3 / 20 then ("gray".data)
  else if hDeg < 30 then ("red".data)
  else if hDeg < 60 then ("orange".data)
  else if hDeg < 90 then ("yellow".data)
  else if hDeg < 150 then ("green".data)
  else if hDeg < 210 then ("teal".data)
  else if hDeg < 270 then ("blue".data)
  else if hDeg < 300 then ("purple".data)
  else if hDeg < 330 then ("pink".data)
  else ("red".data)

/-- The Unsplash-supported color parameters in `getUnsplashColorParam`. -/
def unsplashSupportedColors : List (List Char) :=
  [("black".data), ("white".data), ("yellow".data), ("orange".data), ("red".data),
   ("purple".data), ("magenta".data), ("green".data), ("teal".data), ("blue".data)]

/-- Model of `getUnsplashColorParam`: map `pink` to `magenta`, keep supported
names, drop the rest. -/
def getUnsplashColorParam (hex : List Char) : Option (List Char) :=
  let name := getColorName hex
  if name = ("pink".data) then some ("magenta".data)
  else if name ∈ unsplashSupportedColors then some name
  else none

end ColorHash

namespace ColorHash

/-! ## Derived palette construction (`src/lib/image-api.ts`) -/

/-- Model of `adjustBrightness` in `src/lib/image-api.ts`: scale each channel
by `1 + percent/100`, clamp to `[0, 255]`, round, re-encode. -/
def adjustBrightness (hex : List Char) (percent : ℚ) : List Char :=
  let rgb := hexToRgbIA hex
  let adjust : ℚ → ℚ := fun val => clamp255 (val + val * percent / 100)
  rgbToHex ⟨jsRoundQ (adjust (rgb.r : ℚ)), jsRoundQ (adjust (rgb.g : ℚ)), jsRoundQ (adjust (rgb.b : ℚ))⟩

/-- Model of `adjustSaturation` in `src/lib/image-api.ts`: scale each
channel's deviation from the channel mean by `1 + percent/100`, clamp,
round, re-encode. -/
def adjustSaturation (hex : List Char) (percent : ℚ) : List Char :=
  let rgb := hexToRgbIA hex
  let gray : ℚ := ((rgb.r : ℚ) + (rgb.g : ℚ) + (rgb.b : ℚ)) / 3
  let adjust : ℚ → ℚ := fun val => clamp255 (gray + (val - gray) * (1 + percent / 100))
  rgbToHex ⟨jsRoundQ (adjust (rgb.r : ℚ)), jsRoundQ (adjust (rgb.g : ℚ)), jsRoundQ (adjust (rgb.b : ℚ))⟩

/-- Model of `getComplementaryColor`: per-channel `255 − channel`. -/
def getComplementaryColor (hex : List Char) : List Char :=
  let rgb := hexToRgbIA hex
  rgbToHex ⟨255 - rgb.r, 255 - rgb.g, 255 - rgb.b⟩

/-- Model of `getAnalogousColors`: brightness shifts of +15% and −15%. -/
def getAnalogousColors (hex : List Char) : List Char × List Char :=
  (adjustBrightness hex 15, adjustBrightness hex (-15))

/-- The 9-slot `DominantColors` record. -/
structure DominantColors where
  vibrant : List Char
  darkVibrant : List Char
  lightVibrant : List Char
  muted : List Char
  darkMuted : List Char
  lightMuted : List Char
  complementary : List Char
  analogous1 : List Char
  analogous2 : List Char
deriving DecidableEq

/-- Model of `buildDerivedPalette`: the deterministic 9-slot palette derived
from one primary hex color. -/
def buildDerivedPalette (primaryColor : List Char) : DominantColors :=
  let complementary := getComplementaryColor primaryColor
  let analogous := getAnalogousColors primaryColor
  ⟨primaryColor,
   adjustBrightness primaryColor (-30),
   adjustBrightness primaryColor 30,
   adjustSaturation primaryColor (-30),
   adjustBrightness (adjustSaturation primaryColor (-30)) (-30),
   adjustBrightness (adjustSaturation primaryColor (-30)) 30,
   complementary,
   analogous.1,
   analogous.2⟩

/-- The slot values of a `DominantColors` record in `Object.values` order
(field insertion order). -/
def paletteColorList (d : DominantColors) : List (List Char) :=
  [d.vibrant, d.darkVibrant, d.lightVibrant, d.muted, d.darkMuted, d.lightMuted,
   d.complementary, d.analogous1, d.analogous2]

/-! ## Provider image records and the unified result shape -/

/-- The multi-resolution URL set of an Unsplash-shaped image. -/
structure ImageUrls where
  raw : List Char
  full : List Char
  regular : List Char
  small : List Char
  thumb : List Char
deriving DecidableEq

/-- Optional avatar of an image author. -/
structure ProfileImage where
  small : List Char
deriving DecidableEq

/-- Attribution block of an image. -/
structure UserInfo where
  name : List Char
  username : List Char
  profile_image : Option ProfileImage
deriving DecidableEq

/-- Outbound link block of an image. -/
structure ImageLinks where
  html : List Char
deriving DecidableEq

/-- Provider-native Unsplash image record (the fields the app uses). -/
structure UnsplashImage where
  id : List Char
  urls : ImageUrls
  user : UserInfo
  links : Option ImageLinks
  description : Option (List Char)
  alt_description : Option (List Char)
  color : List Char
deriving DecidableEq

/-- Source URL set of a Pexels image. -/
structure PexelsSrc where
  original : List Char
  large2x : List Char
  large : List Char
  medium : List Char
  small : List Char
deriving DecidableEq

/-- Provider-native Pexels image record. -/
structure PexelsImage where
  id : ℤ
  src : PexelsSrc
  photographer : List Char
  avg_color : List Char
deriving DecidableEq

/-- Provider-native Pixabay image record (carries no color metadata). -/
structure PixabayImage where
  id : ℤ
  pageURL : List Char
  type : List Char
  tags : List Char
  previewURL : List Char
  webformatURL : List Char
  largeImageURL : List Char
  user : List Char
  userImageURL : List Char
deriving DecidableEq

/-- Provider tag of a unified result. -/
inductive SourceTag where
  | unsplash
  | pexels
  | pixabay
deriving DecidableEq

/-- The unified `ColorSearchResultImage` shape returned by the route. -/
structure ColorSearchResultImage where
  id : List Char
  urls : ImageUrls
  user : UserInfo
  links : ImageLinks
  description : Option (List Char)
  alt_description : Option (List Char)
  color : List Char
  dominantColors : DominantColors
  source : SourceTag
deriving DecidableEq

/-! ## Per-provider palette derivation (`buildDominantColorsFrom*`) -/

/-- The string `'#000000'`, the fallback primary color. -/
def blackHex : List Char := ("#000000".data)

/-- The palette an Unsplash image receives: derived from its `color` field,
substituting black when the field is the empty string (JavaScript
`image.color || '#000000'`). -/
def unsplashPalette (image : UnsplashImage) : DominantColors :=
  buildDerivedPalette (if image.color = [] then blackHex else image.color)

/-- The palette a Pexels image receives, from its `avg_color` field. -/
def pexelsPalette (image : PexelsImage) : DominantColors :=
  buildDerivedPalette (if image.avg_color = [] then blackHex else image.avg_color)

/-- Model of `buildDominantColorsFromUnsplash`.  The `try`/`catch` in the
source can never fire because `buildDerivedPalette` is total, so the result
is always `some`. -/
def buildDominantColorsFromUnsplash (image : UnsplashImage) : Option DominantColors :=
  some (unsplashPalette image)

/-- Model of `buildDominantColorsFromPexels`: same derivation from
`avg_color`. -/
def buildDominantColorsFromPexels (image : PexelsImage) : Option DominantColors :=
  some (pexelsPalette image)

/-- Model of `buildDominantColorsFromPixabay`: Pixabay provides no color
metadata, so the normalizer always yields `none`, signalling the route to
skip the image. -/
def buildDominantColorsFromPixabay (_image : PixabayImage) : Option DominantColors :=
  none

end ColorHash

namespace ColorHash

/-! ## The `/api/search-images` route -/

/-- JavaScript `toLowerCase()` (the photographer names involved are ASCII;
`Char.toLower` matches `toLowerCase` on ASCII). -/
def jsToLower (s : List Char) : List Char := s.map Char.toLower

/-- Worker replacing each maximal whitespace run by `-`; the flag records
whether the previous character was inside a run. -/
def dashRunsAux : Bool → List Char → List Char
  | _, [] => []
  | inRun, c :: rest =>
    if c.isWhitespace then
      if inRun then dashRunsAux true rest else '-' :: dashRunsAux true rest
    else c :: dashRunsAux false rest

/-- JavaScript `replace(/\s+/g, '-')`. -/
def jsDashWhitespace (s : List Char) : List Char := dashRunsAux false s

/-- Upper-case hex digit of a value in `[0, 15]`. -/
def hexDigitUpper (v : ℕ) : Char :=
  if v < 10 then Char.ofNat ('0'.toNat + v) else Char.ofNat ('A'.toNat + (v - 10))

/-- Characters `encodeURIComponent` leaves unescaped: ASCII alphanumerics
and `- _ . ! ~ * ' ( )`. -/
def uriUnreserved (c : Char) : Bool :=
  (('0' ≤ c && c ≤ '9') || ('a' ≤ c && c ≤ 'z') || ('A' ≤ c && c ≤ 'Z') ||
   c = '-' || c = '_' || c = '.' || c = '!' || c = '~' || c = '*' ||
   c = '(' || c = ')' || c = '\'')

/-- JavaScript `encodeURIComponent`: percent-encode the UTF-8 bytes of every
reserved character. -/
def encodeURIComponentModel (s : List Char) : List Char :=
  s.flatMap fun c =>
    if uriUnreserved c then [c]
    else (String.utf8EncodeChar c).flatMap fun byte =>
      ['%', hexDigitUpper (byte.toNat / 16), hexDigitUpper (byte.toNat % 16)]

/-- Decimal rendering of an integer (`id.toString()`). -/
def intToDecString (n : ℤ) : List Char := (toString n).data

/-- The per-image `hasMatch` test of the route: some palette color is within
`threshold` of some requested swatch.  (The palette slots are always
strings, so the `filter`, `typeof` and `try`/`catch` guards of the source
never reject anything.) -/
def imageColorsMatch (targets : List ColorRGB) (d : DominantColors) (threshold : ℚ) : Bool :=
  (paletteColorList d).any fun imageHex =>
    targets.any fun targetRgb => decide (isColorMatch targetRgb (hexToRgb imageHex) threshold)

/-- The links block of an Unsplash result:
`image.links ?? { html: 'https://unsplash.com/photos/' + image.id }`. -/
def unsplashLinks (image : UnsplashImage) : ImageLinks :=
  match image.links with
  | some l => l
  | none => ⟨("https://unsplash.com/photos/".data) ++ image.id⟩

/-- The unified record pushed for a matched Unsplash image. -/
def mkUnsplashResult (image : UnsplashImage) (d : DominantColors) : ColorSearchResultImage :=
  ⟨image.id, image.urls, image.user, unsplashLinks image, image.description,
   image.alt_description, image.color, d, .unsplash⟩

/-- The unified record pushed for a matched Pexels image (transformed to the
Unsplash-like shape). -/
def mkPexelsResult (image : PexelsImage) (d : DominantColors) : ColorSearchResultImage :=
  ⟨intToDecString image.id,
   ⟨image.src.original, image.src.large2x, image.src.large, image.src.medium, image.src.small⟩,
   ⟨image.photographer, jsDashWhitespace (jsToLower image.photographer),
    some ⟨("https://ui-avatars.com/api/?name=".data) ++
      encodeURIComponentModel image.photographer ++ ("&size=32".data)⟩⟩,
   ⟨("https://www.pexels.com/photo/".data) ++ intToDecString image.id ++ ("/".data)⟩,
   none, some (("Photo by ".data) ++ image.photographer), image.avg_color, d, .pexels⟩

/-- The unified record pushed for a matched Pixabay image; its `color` field
reuses the first derived palette slot
(`Object.values(dominantColors)[0] ?? '#000000'`). -/
def mkPixabayResult (image : PixabayImage) (d : DominantColors) : ColorSearchResultImage :=
  ⟨intToDecString image.id,
   ⟨image.largeImageURL, image.largeImageURL, image.webformatURL, image.webformatURL,
    image.previewURL⟩,
   ⟨image.user, jsDashWhitespace (jsToLower image.user),
    if image.userImageURL = [] then none else some ⟨image.userImageURL⟩⟩,
   ⟨image.pageURL⟩, some image.tags, some image.tags,
   (paletteColorList d).headD blackHex, d, .pixabay⟩

/-- The Unsplash processing loop of the route: skip images whose palette
derivation yields `null`, keep those with a palette color matching a
requested swatch. -/
def processUnsplash (images : List UnsplashImage) (targets : List ColorRGB)
    (threshold : ℚ) : List ColorSearchResultImage :=
  images.filterMap fun image =>
    match buildDominantColorsFromUnsplash image with
    | none => none
    | some d => if imageColorsMatch targets d threshold then some (mkUnsplashResult image d) else none

/-- The Pexels processing loop of the route. -/
def processPexels (images : List PexelsImage) (targets : List ColorRGB)
    (threshold : ℚ) : List ColorSearchResultImage :=
  images.filterMap fun image =>
    match buildDominantColorsFromPexels image with
    | none => none
    | some d => if imageColorsMatch targets d threshold then some (mkPexelsResult image d) else none

/-- The Pixabay processing loop of the route. -/
def processPixabay (images : List PixabayImage) (targets : List ColorRGB)
    (threshold : ℚ) : List ColorSearchResultImage :=
  images.filterMap fun image =>
    match buildDominantColorsFromPixabay image with
    | none => none
    | some d => if imageColorsMatch targets d threshold then some (mkPixabayResult image d) else none

/-- All matched images, in provider arrival order (Unsplash, Pexels,
Pixabay), as accumulated by the route's three loops. -/
def matchedImages (u : List UnsplashImage) (p : List PexelsImage) (px : List PixabayImage)
    (targets : List ColorRGB) (threshold : ℚ) : List ColorSearchResultImage :=
  processUnsplash u targets threshold ++ processPexels p targets threshold ++
    processPixabay px targets threshold

/-- The score the route attaches to a matched image: the minimum Euclidean
distance between the image's primary `color` field and the requested
swatches, starting the `reduce` from `Infinity` (modelled as `⊤`). -/
noncomputable def primaryScore (targets : List ColorRGB) (imgColor : List Char) : WithTop ℝ :=
  targets.foldl (fun m target => min m ((colorDistance target (hexToRgb imgColor) : ℝ) : WithTop ℝ)) ⊤

/-- The scored list `matchedImages.map(img => ({img, dist}))`. -/
noncomputable def scoredImages (matched : List ColorSearchResultImage)
    (targets : List ColorRGB) : List (ColorSearchResultImage × WithTop ℝ) :=
  matched.map fun img => (img, primaryScore targets img.color)

open Classical in
/-- The ascending comparator `(a, b) => a.dist - b.dist` of the route's
sort. -/
noncomputable def scoreLe (a b : ColorSearchResultImage × WithTop ℝ) : Bool :=
  decide (a.2 ≤ b.2)

/-- The sorted image list of the route: a stable ascending sort of the
scored images, projected back to the images. -/
noncomputable def sortedMatched (matched : List ColorSearchResultImage)
    (targets : List ColorRGB) : List ColorSearchResultImage :=
  (List.mergeSort (scoredImages matched targets) scoreLe).map Prod.fst

/-- The per-provider counts of the route response. -/
structure SourcesCount where
  unsplash : ℕ
  pexels : ℕ
  pixabay : ℕ
deriving DecidableEq

/-- The `SearchImagesResponseBody` shape. -/
structure SearchImagesResponseBody where
  images : List ColorSearchResultImage
  page : ℤ
  total : ℕ
  sources : SourcesCount

/-- The part of the route after the provider results arrive: normalize,
filter, score, sort, and count per provider. -/
noncomputable def coreResponse (u : List UnsplashImage) (p : List PexelsImage)
    (px : List PixabayImage) (targets : List ColorRGB) (threshold : ℚ)
    (page : ℤ) : SearchImagesResponseBody :=
  let matched := matchedImages u p px targets threshold
  let sorted := sortedMatched matched targets
  ⟨sorted, page, sorted.length,
   ⟨(matched.filter fun img => decide (img.source = SourceTag.unsplash)).length,
    (matched.filter fun img => decide (img.source = SourceTag.pexels)).length,
    (matched.filter fun img => decide (img.source = SourceTag.pixabay)).length⟩⟩

/-- Request body of `/api/search-images` (`page` defaults to 1 and
`threshold` to 80 at the destructuring site; the model keeps them
explicit). -/
structure SearchImagesRequestBody where
  hexColors : List Char
  page : ℤ
  threshold : ℚ

/-- The route's input error. -/
inductive RouteError where
  | noValidHexColors
deriving DecidableEq

/-- The three provider search functions, as an oracle record: each maps the
query arguments the route passes to the provider-native result list. -/
structure ProviderSearchFns where
  unsplash : List Char → ℤ → ℤ → Option (List Char) → List UnsplashImage
  pexels : List Char → ℤ → ℤ → List PexelsImage
  pixabay : List Char → ℤ → ℤ → List PixabayImage

/-- Model of the route `POST` handler: parse the swatches, reject the
request when none are valid (before any provider call), otherwise build the
query from the primary swatch's color name, fan out to the three providers,
and assemble the filtered, scored, sorted response. -/
noncomputable def searchImagesPOST (providers : ProviderSearchFns)
    (req : SearchImagesRequestBody) : Except RouteError SearchImagesResponseBody :=
  match parseHexColors req.hexColors with
  | [] => .error .noValidHexColors
  | primaryHex :: restColors =>
    let parsedColors := primaryHex :: restColors
    let colorName := getColorName primaryHex
    let unsplashColor := getUnsplashColorParam primaryHex
    let searchQuery := colorName ++ (" nature abstract".data)
    let unsplashImages := providers.unsplash searchQuery req.page 20 unsplashColor
    let pexelsImages := providers.pexels (colorName ++ (" color".data)) req.page 20
    let pixabayImages := providers.pixabay colorName req.page 30
    let targets := parsedColors.map hexToRgb
    .ok (coreResponse unsplashImages pexelsImages pixabayImages targets req.threshold req.page)

/-! ## Provider adapters (`searchUnsplash`, `searchPexels`, `searchPixabay`)

The HTTP transport of an adapter is modelled as an `Except` outcome covering
every failure mode (network error, auth failure, malformed response body). -/

/-- A provider transport failure. -/
inductive ProviderFailure where
  | failure (message : List Char)
deriving DecidableEq

/-- The `try`/`catch` recovery shared by all three adapters: a failed
transport contributes an empty list. -/
def adapterRecover {α : Type} (transport : Except ProviderFailure (List α)) : List α :=
  match transport with
  | .error _ => []
  | .ok images => images

/-- Model of `searchUnsplash`: recover from any transport failure with `[]`. -/
def searchUnsplashModel (transport : Except ProviderFailure (List UnsplashImage)) :
    List UnsplashImage :=
  adapterRecover transport

/-- Model of `searchPexels`. -/
def searchPexelsModel (transport : Except ProviderFailure (List PexelsImage)) :
    List PexelsImage :=
  adapterRecover transport

/-- Model of `searchPixabay`: a missing `PIXABAY_API_KEY` short-circuits to
`[]` before any transport; otherwise recover like the others. -/
def searchPixabayModel (apiKey : Option (List Char))
    (transport : Except ProviderFailure (List PixabayImage)) : List PixabayImage :=
  match apiKey with
  | none => []
  | some _ => adapterRecover transport

end ColorHash

namespace ColorHash

/-! ## WCAG luminance, contrast ratio, and `ensureContrast` -/

/-- Linearize one sRGB channel (an integer in `[0, 255]`):
`c ≤ 0.03928 → c/12.92`, otherwise `((c + 0.055)/1.055)^2.4`. -/
noncomputable def linChannel (k : ℤ) : ℝ :=
  if (k : ℚ) / 255 ≤ 3928 / 100000 then ((k : ℝ) / 255) / 12.92
  else (((k : ℝ) / 255 + 0.055) / 1.055) ^ (2.4 : ℝ)

/-- WCAG relative luminance of a rounded color
(tinycolor `getLuminance()`). -/
noncomputable def luminance (c : ColorRGB) : ℝ :=
  0.2126 * linChannel c.r + 0.7152 * linChannel c.g + 0.0722 * linChannel c.b

/-- WCAG contrast ratio (tinycolor `readability`):
`(max(L1, L2) + 0.05) / (min(L1, L2) + 0.05)`. -/
noncomputable def readability (c1 c2 : ColorRGB) : ℝ :=
  (max (luminance c1) (luminance c2) + 0.05) / (min (luminance c1) (luminance c2) + 0.05)

/-- Model of `getContrastRatio` from `src/lib/color-utils.ts`:
`tinycolor.readability(fg, bg)` on the parsed colors. -/
noncomputable def getContrastRatio (fg bg : List Char) : ℝ :=
  readability (hexToRgb fg) (hexToRgb bg)

/-- The one lighten-or-darken step of the `ensureContrast` loop. -/
def ecStep (isBgDark : Bool) (c : RGBQ) : RGBQ :=
  if isBgDark then tcLighten 1 c else tcDarken 1 c

open Classical in
/-- The correction loop of `ensureContrast`:
`while (readability(result.toHexString(), bg) < target && iterations < 100)`,
stepping the unrounded result and re-reading the ratio from the rounded hex
each time.  The fuel argument is `100 − iterations`. -/
noncomputable def ecLoop (bg : ColorRGB) (target : ℝ) (isBgDark : Bool) :
    ℕ → RGBQ → RGBQ
  | 0, result => result
  | n + 1, result =>
    if readability (roundRGB result) bg < target then
      ecLoop bg target isBgDark n (ecStep isBgDark result)
    else result

open Classical in
/-- Number of loop iterations `ensureContrast` executes from a given state
with the given fuel. -/
noncomputable def ecLoopCount (bg : ColorRGB) (target : ℝ) (isBgDark : Bool) :
    ℕ → RGBQ → ℕ
  | 0, _ => 0
  | n + 1, result =>
    if readability (roundRGB result) bg < target then
      ecLoopCount bg target isBgDark n (ecStep isBgDark result) + 1
    else 0

open Classical in
/-- Model of `ensureContrast` from `src/lib/color-utils.ts`: return `fg`
unchanged when it already meets the target ratio against `bg`; otherwise
repeatedly lighten (on a dark background) or darken (on a light one) by one
lightness step, for at most 100 iterations, and return the hex rendering of
the final state. -/
noncomputable def ensureContrast (fg bg : List Char) (target : ℝ) : List Char :=
  if target ≤ readability (hexToRgb fg) (hexToRgb bg) then fg
  else
    toHexString
      (ecLoop (hexToRgb bg) target (tcIsDark (hexToRgb bg)) 100 (ofColorRGB (hexToRgb fg)))

/-! ## Role assignment (`applyFromBase` on the palette page) -/

/-- Brightness preference of the project settings. -/
inductive BrightnessPref where
  | light
  | dark
  | mixed
deriving DecidableEq

/-- The six-slot role palette record. -/
structure PaletteSlots where
  base : List Char
  background : List Char
  illustration : List Char
  accent : List Char
  textHeading : List Char
  textBody : List Char

/-- Background construction of `applyFromBase`: a dark base-hued tone for
the `dark` preference (lightness 8%, saturation capped at 20%), fixed light
neutrals for `mixed`, and a near-white base-hued tint otherwise (lightness
98%, saturation capped at 10%). -/
def afbBackground (vibeBase : List Char) (brightness : BrightnessPref) (vibe : Vibe) :
    List Char :=
  match brightness with
  | .dark =>
    let hsl := rgbToHsl (tcParse vibeBase)
    toHexString (hslToRgb ⟨hsl.h, min hsl.s (1 / 5), 2 / 25⟩)
  | .mixed =>
    if vibe = .retro then ("#FDF8F1".data)
    else if vibe = .minimal then ("#F3F4F6".data)
    else ("#F9FAFB".data)
  | .light =>
    let hsl := rgbToHsl (tcParse vibeBase)
    toHexString (hslToRgb ⟨hsl.h, min hsl.s (1 / 10), 49 / 50⟩)

/-- Heading text candidate: ramp index 7 (tints on a dark background,
shades otherwise), with the source's `||` fallbacks. -/
def afbHeadingCandidate (vibeBase : List Char) (isBgDark : Bool) : List Char :=
  if isBgDark then (generateTints vibeBase 8).getD 7 ("#FFFFFF".data)
  else (generateShades vibeBase 8).getD 7 ("#111827".data)

/-- Body text candidate: ramp index 5. -/
def afbBodyCandidate (vibeBase : List Char) (isBgDark : Bool) : List Char :=
  if isBgDark then (generateTints vibeBase 8).getD 5 ("#E5E7EB".data)
  else (generateShades vibeBase 8).getD 5 ("#374151".data)

open Classical in
/-- Model of `applyFromBase` from the palette page: vibe-shift the base,
build background/illustration/accent, and pass the two text candidates
through `ensureContrast` against the background at the caller's target
ratio. -/
noncomputable def applyFromBase (hex : List Char) (vibe : Vibe)
    (brightness : BrightnessPref) (threshold : ℝ) : PaletteSlots :=
  let vibeBase := (applyVibeToPalette hex vibe).base
  let harmony := generateHarmony vibeBase
  let tints := generateTints vibeBase 8
  let background := afbBackground vibeBase brightness vibe
  let isBgDark := tcIsDark (hexToRgb background)
  let illustration := if isBgDark then tints.getD 2 vibeBase else vibeBase
  let accentCandidate :=
    if vibe = .playful then harmony.triadic.getD 1 harmony.complementary
    else harmony.complementary
  let accent := ensureContrast accentCandidate background (max threshold 3)
  ⟨hex, background, illustration, accent,
   ensureContrast (afbHeadingCandidate vibeBase isBgDark) background threshold,
   ensureContrast (afbBodyCandidate vibeBase isBgDark) background threshold⟩

end ColorHash

namespace ColorHash

/-! ## Spec-side definition for the scoring claim

The specification describes the match score as "the minimum Euclidean RGB
distance between an image's derived-palette colors and any requested
swatch".  The following definition transcribes those words (it is *not* the
route's computation, which uses only the primary `color` field); claim C1
compares the two. -/

/-- Spec wording: global minimum distance over all nine derived-palette
colors against all requested swatches. -/
noncomputable def specPaletteMinScore (targets : List ColorRGB) (d : DominantColors) :
    WithTop ℝ :=
  ((paletteColorList d).map hexToRgb).foldl
    (fun m c => targets.foldl
      (fun m2 target => min m2 ((colorDistance target c : ℝ) : WithTop ℝ)) m) ⊤

/-! ## Concrete fixtures used by witnesses and counterexamples -/

/-- Provider oracles that return nothing. -/
def emptyProviders : ProviderSearchFns :=
  ⟨fun _ _ _ _ => [], fun _ _ _ => [], fun _ _ _ => []⟩

/-- A black Unsplash image: its derived palette contains its white
complementary slot. -/
def cexBlackImage : UnsplashImage :=
  ⟨("img-1".data), ⟨[], [], [], [], []⟩, ⟨("a".data), ("a".data), none⟩, none, none, none,
   ("#000000".data)⟩

/-- The pure-white swatch. -/
def whiteSwatch : ColorRGB := ⟨255, 255, 255⟩

/-! ## Verification-side predicates -/

/-- All integer channels within `[0, 255]`. -/
def validC (c : ColorRGB) : Prop :=
  0 ≤ c.r ∧ c.r ≤ 255 ∧ 0 ≤ c.g ∧ c.g ≤ 255 ∧ 0 ≤ c.b ∧ c.b ≤ 255

/-- All rational channels within `[0, 255]`. -/
def validQ (c : RGBQ) : Prop :=
  0 ≤ c.r ∧ c.r ≤ 255 ∧ 0 ≤ c.g ∧ c.g ≤ 255 ∧ 0 ≤ c.b ∧ c.b ≤ 255

end ColorHash

namespace ColorHash

/-! # Theorems

Everything below is proof; the program model is complete above. -/

/-! ## Route structure lemmas -/

theorem mem_processUnsplash {images : List UnsplashImage} {targets : List ColorRGB}
    {threshold : ℚ} {u : ColorSearchResultImage} :
    u ∈ processUnsplash images targets threshold ↔
      ∃ i ∈ images, imageColorsMatch targets (unsplashPalette i) threshold = true ∧
        u = mkUnsplashResult i (unsplashPalette i) := by
  simp only [processUnsplash, buildDominantColorsFromUnsplash, List.mem_filterMap]
  constructor
  · rintro ⟨i, hi, heq⟩
    by_cases hm : imageColorsMatch targets (unsplashPalette i) threshold = true
    · rw [if_pos hm] at heq
      exact ⟨i, hi, hm, (Option.some_inj.mp heq).symm⟩
    · rw [if_neg hm] at heq
      exact absurd heq (by simp)
  · rintro ⟨i, hi, hm, rfl⟩
    exact ⟨i, hi, by rw [if_pos hm]⟩

theorem mem_processPexels {images : List PexelsImage} {targets : List ColorRGB}
    {threshold : ℚ} {u : ColorSearchResultImage} :
    u ∈ processPexels images targets threshold ↔
      ∃ i ∈ images, imageColorsMatch targets (pexelsPalette i) threshold = true ∧
        u = mkPexelsResult i (pexelsPalette i) := by
  simp only [processPexels, buildDominantColorsFromPexels, List.mem_filterMap]
  constructor
  · rintro ⟨i, hi, heq⟩
    by_cases hm : imageColorsMatch targets (pexelsPalette i) threshold = true
    · rw [if_pos hm] at heq
      exact ⟨i, hi, hm, (Option.some_inj.mp heq).symm⟩
    · rw [if_neg hm] at heq
      exact absurd heq (by simp)
  · rintro ⟨i, hi, hm, rfl⟩
    exact ⟨i, hi, by rw [if_pos hm]⟩

theorem processPixabay_eq_nil (images : List PixabayImage) (targets : List ColorRGB)
    (threshold : ℚ) : processPixabay images targets threshold = [] := by
  simp [processPixabay, buildDominantColorsFromPixabay]

theorem source_of_mem_processUnsplash {images targets threshold u}
    (h : u ∈ processUnsplash images targets threshold) : u.source = SourceTag.unsplash := by
  obtain ⟨i, _, _, rfl⟩ := mem_processUnsplash.mp h
  rfl

theorem source_of_mem_processPexels {images targets threshold u}
    (h : u ∈ processPexels images targets threshold) : u.source = SourceTag.pexels := by
  obtain ⟨i, _, _, rfl⟩ := mem_processPexels.mp h
  rfl

theorem sortedMatched_perm (matched : List ColorSearchResultImage)
    (targets : List ColorRGB) : (sortedMatched matched targets).Perm matched := by
  unfold sortedMatched scoredImages
  have h1 := List.mergeSort_perm (matched.map fun img => (img, primaryScore targets img.color)) scoreLe
  have h2 := h1.map Prod.fst
  rw [List.map_map] at h2
  have h3 : (List.map (Prod.fst ∘ fun img => (img, primaryScore targets img.color)) matched)
      = matched := by
    rw [show (Prod.fst ∘ fun img : ColorSearchResultImage =>
      (img, primaryScore targets img.color)) = id from rfl, List.map_id]
  rw [h3] at h2
  exact h2

theorem coreResponse_images_perm (u : List UnsplashImage) (p : List PexelsImage)
    (px : List PixabayImage) (targets : List ColorRGB) (threshold : ℚ) (page : ℤ) :
    (coreResponse u p px targets threshold page).images.Perm
      (matchedImages u p px targets threshold) :=
  sortedMatched_perm _ _

theorem imageColorsMatch_iff {targets : List ColorRGB} {d : DominantColors}
    {threshold : ℚ} :
    imageColorsMatch targets d threshold = true ↔
      ∃ hexc ∈ paletteColorList d, ∃ t ∈ targets,
        colorDistance t (hexToRgb hexc) ≤ (threshold : ℝ) := by
  simp [imageColorsMatch, List.any_eq_true, isColorMatch]

theorem mem_matchedImages {u p px targets threshold img} :
    img ∈ matchedImages u p px targets threshold ↔
      img ∈ processUnsplash u targets threshold ∨ img ∈ processPexels p targets threshold := by
  unfold matchedImages
  rw [processPixabay_eq_nil]
  simp

end ColorHash

namespace ColorHash

/-! ## Claim C10: bare hex runs -/

/-- C10: the swatch parser accepts bare runs of 3–6 hex digits with no `#`
prefix — the ordinary word "facade", all of whose letters are hex digits,
yields a non-empty swatch set — while a run of exactly 4 or 5 hex digits is
matched as a scanner token but rejected by `normalizeHex` and therefore
dropped from the parse result. -/
theorem C10_bare_hex_runs :
    parseHexColors ("facade".data) = [("#facade".data)] ∧
    (∀ l : List Char, l.all isHexDigitCh = true → (l.length = 4 ∨ l.length = 5) →
      scanHexTokens l = [l] ∧ normalizeHex l = none ∧ parseHexColors l = []) := by
  constructor
  · decide
  · intro l hall h45
    have hscan : scanHexTokens l = [l] :=
      scanHexTokens_all_hex hall (by omega) (by omega)
    have hnorm : normalizeHex l = none := normalizeHex_of_all_hex_len45 hall h45
    refine ⟨hscan, hnorm, ?_⟩
    unfold parseHexColors
    rw [hscan]
    simp [hnorm]

/-- Witness for C10 at the concrete 4-digit run `"abcd"`. -/
theorem C10_bare_hex_runs_witness :
    (("abcd".data).all isHexDigitCh = true ∧ ("abcd".data).length = 4) ∧
      scanHexTokens ("abcd".data) = [("abcd".data)] ∧
      normalizeHex ("abcd".data) = none ∧ parseHexColors ("abcd".data) = [] :=
  ⟨⟨by decide, by decide⟩,
   C10_bare_hex_runs.2 ("abcd".data) (by decide) (Or.inl (by decide))⟩

/-! ## Claim C5: input error short-circuits the providers -/

/-- C5: a match request whose text contains zero valid hex tokens fails with
the input error, and the outcome does not depend on the provider oracles at
all — no provider search is consulted. -/
theorem C5_input_error_no_provider_calls (providers : ProviderSearchFns)
    (req : SearchImagesRequestBody) (h : parseHexColors req.hexColors = []) :
    searchImagesPOST providers req = .error .noValidHexColors ∧
      ∀ providers2 : ProviderSearchFns,
        searchImagesPOST providers2 req = searchImagesPOST providers req := by
  have hpost : ∀ ps : ProviderSearchFns,
      searchImagesPOST ps req = .error .noValidHexColors := by
    intro ps
    unfold searchImagesPOST
    rw [h]
  exact ⟨hpost providers, fun p2 => by rw [hpost p2, hpost providers]⟩

/-- Witness for C5 on the all-invalid input `"no colors!"`. -/
theorem C5_input_error_no_provider_calls_witness :
    parseHexColors ("no colors!".data) = [] ∧
      searchImagesPOST emptyProviders ⟨("no colors!".data), 1, 80⟩ =
        .error .noValidHexColors :=
  ⟨by decide,
   (C5_input_error_no_provider_calls emptyProviders ⟨("no colors!".data), 1, 80⟩
     (by decide)).1⟩

/-! ## Claim C3: a unified image exists only with a derivable palette -/

/-- C3: the normalizer produces a unified image only when a base color (and
hence a palette) is obtainable: every image emitted by the Unsplash or
Pexels loop carries exactly the palette its `buildDominantColorsFrom*`
returned (never null), and Pixabay images, whose palette derivation yields
`none`, are excluded from the result set entirely. -/
theorem C3_palette_required_for_inclusion :
    (∀ img : PixabayImage, buildDominantColorsFromPixabay img = none) ∧
    (∀ (images : List PixabayImage) (targets : List ColorRGB) (threshold : ℚ),
      processPixabay images targets threshold = []) ∧
    (∀ (images : List UnsplashImage) (targets : List ColorRGB) (threshold : ℚ)
      (u : ColorSearchResultImage), u ∈ processUnsplash images targets threshold →
        ∃ i ∈ images, buildDominantColorsFromUnsplash i = some u.dominantColors) ∧
    (∀ (images : List PexelsImage) (targets : List ColorRGB) (threshold : ℚ)
      (u : ColorSearchResultImage), u ∈ processPexels images targets threshold →
        ∃ i ∈ images, buildDominantColorsFromPexels i = some u.dominantColors) := by
  refine ⟨fun _ => rfl, processPixabay_eq_nil, ?_, ?_⟩
  · intro images targets threshold u hu
    obtain ⟨i, hi, _, rfl⟩ := mem_processUnsplash.mp hu
    exact ⟨i, hi, rfl⟩
  · intro images targets threshold u hu
    obtain ⟨i, hi, _, rfl⟩ := mem_processPexels.mp hu
    exact ⟨i, hi, rfl⟩

/-- Witness for C3: the black Unsplash image against a white swatch is
retained (its complementary palette slot is white), and the theorem
produces its palette provenance. -/
theorem colorDistance_white_white : colorDistance whiteSwatch whiteSwatch = 0 := by
  unfold colorDistance
  rw [show distSq whiteSwatch whiteSwatch = 0 from by decide]
  simp [Real.sqrt_zero]

theorem cexBlack_palette_complementary :
    (unsplashPalette cexBlackImage).complementary = ("#ffffff".data) := by decide

theorem cexBlack_matches_white :
    imageColorsMatch [whiteSwatch] (unsplashPalette cexBlackImage) 80 = true := by
  refine imageColorsMatch_iff.mpr
    ⟨(unsplashPalette cexBlackImage).complementary, by simp [paletteColorList],
     whiteSwatch, by simp, ?_⟩
  rw [cexBlack_palette_complementary,
    show hexToRgb ("#ffffff".data) = whiteSwatch from by decide,
    colorDistance_white_white]
  norm_num

theorem C3_palette_required_for_inclusion_witness :
    (mkUnsplashResult cexBlackImage (unsplashPalette cexBlackImage) ∈
      processUnsplash [cexBlackImage] [whiteSwatch] 80) ∧
    ∃ i ∈ [cexBlackImage], buildDominantColorsFromUnsplash i =
      some (mkUnsplashResult cexBlackImage (unsplashPalette cexBlackImage)).dominantColors := by
  have hmem : mkUnsplashResult cexBlackImage (unsplashPalette cexBlackImage) ∈
      processUnsplash [cexBlackImage] [whiteSwatch] 80 :=
    mem_processUnsplash.mpr ⟨cexBlackImage, by simp, cexBlack_matches_white, rfl⟩
  exact ⟨hmem,
    C3_palette_required_for_inclusion.2.2.1 [cexBlackImage] [whiteSwatch] 80 _ hmem⟩

end ColorHash

namespace ColorHash

/-! ## Per-provider count lemmas -/

theorem matched_filter_unsplash (u : List UnsplashImage) (p : List PexelsImage)
    (px : List PixabayImage) (targets : List ColorRGB) (threshold : ℚ) :
    ((matchedImages u p px targets threshold).filter
      fun img => decide (img.source = SourceTag.unsplash)) =
      processUnsplash u targets threshold := by
  unfold matchedImages
  rw [List.filter_append, List.filter_append]
  rw [List.filter_eq_self.mpr (fun a ha => by
    simp [source_of_mem_processUnsplash ha])]
  rw [List.filter_eq_nil_iff.mpr (fun a ha => by
    simp [source_of_mem_processPexels ha])]
  rw [processPixabay_eq_nil]
  simp

theorem matched_filter_pexels (u : List UnsplashImage) (p : List PexelsImage)
    (px : List PixabayImage) (targets : List ColorRGB) (threshold : ℚ) :
    ((matchedImages u p px targets threshold).filter
      fun img => decide (img.source = SourceTag.pexels)) =
      processPexels p targets threshold := by
  unfold matchedImages
  rw [List.filter_append, List.filter_append]
  rw [List.filter_eq_nil_iff.mpr (fun a ha => by
    simp [source_of_mem_processUnsplash ha])]
  rw [List.filter_eq_self.mpr (fun a ha => by
    simp [source_of_mem_processPexels ha])]
  rw [processPixabay_eq_nil]
  simp

theorem matched_filter_pixabay (u : List UnsplashImage) (p : List PexelsImage)
    (px : List PixabayImage) (targets : List ColorRGB) (threshold : ℚ) :
    ((matchedImages u p px targets threshold).filter
      fun img => decide (img.source = SourceTag.pixabay)) = [] := by
  unfold matchedImages
  rw [List.filter_append, List.filter_append]
  rw [List.filter_eq_nil_iff.mpr (fun a ha => by
    simp [source_of_mem_processUnsplash ha])]
  rw [List.filter_eq_nil_iff.mpr (fun a ha => by
    simp [source_of_mem_processPexels ha])]
  rw [processPixabay_eq_nil]
  simp

/-! ## Claim C9: Pixabay images never appear -/

/-- C9: in every response, the Pixabay per-provider count is 0 and no
returned image carries the `pixabay` provider tag — every Pixabay image
yields no derivable palette and is excluded from the unified result. -/
theorem C9_pixabay_always_excluded (u : List UnsplashImage) (p : List PexelsImage)
    (px : List PixabayImage) (targets : List ColorRGB) (threshold : ℚ) (page : ℤ) :
    (coreResponse u p px targets threshold page).sources.pixabay = 0 ∧
    ((coreResponse u p px targets threshold page).images.filter
      fun img => decide (img.source = SourceTag.pixabay)) = [] := by
  constructor
  · show ((matchedImages u p px targets threshold).filter
      fun img => decide (img.source = SourceTag.pixabay)).length = 0
    rw [matched_filter_pixabay]
    rfl
  · have hperm := (coreResponse_images_perm u p px targets threshold page).filter
      (fun img => decide (img.source = SourceTag.pixabay))
    rw [matched_filter_pixabay] at hperm
    exact List.perm_nil.mp hperm

/-! ## Claim C4: the retention filter -/

/-- C4: an image is retained by the route if and only if at least one of its
derived-palette colors is within `threshold` Euclidean RGB distance
(inclusive) of at least one requested swatch, for both providers that can
produce palettes. -/
theorem C4_retention_iff :
    (∀ (images : List UnsplashImage) (targets : List ColorRGB) (threshold : ℚ)
      (r : ColorSearchResultImage),
      r ∈ processUnsplash images targets threshold ↔
        ∃ i ∈ images,
          (∃ hexc ∈ paletteColorList (unsplashPalette i), ∃ t ∈ targets,
            colorDistance t (hexToRgb hexc) ≤ (threshold : ℝ)) ∧
          r = mkUnsplashResult i (unsplashPalette i)) ∧
    (∀ (images : List PexelsImage) (targets : List ColorRGB) (threshold : ℚ)
      (r : ColorSearchResultImage),
      r ∈ processPexels images targets threshold ↔
        ∃ i ∈ images,
          (∃ hexc ∈ paletteColorList (pexelsPalette i), ∃ t ∈ targets,
            colorDistance t (hexToRgb hexc) ≤ (threshold : ℝ)) ∧
          r = mkPexelsResult i (pexelsPalette i)) := by
  constructor
  · intro images targets threshold r
    rw [mem_processUnsplash]
    constructor
    · rintro ⟨i, hi, hm, rfl⟩
      exact ⟨i, hi, imageColorsMatch_iff.mp hm, rfl⟩
    · rintro ⟨i, hi, hm, rfl⟩
      exact ⟨i, hi, imageColorsMatch_iff.mpr hm, rfl⟩
  · intro images targets threshold r
    rw [mem_processPexels]
    constructor
    · rintro ⟨i, hi, hm, rfl⟩
      exact ⟨i, hi, imageColorsMatch_iff.mp hm, rfl⟩
    · rintro ⟨i, hi, hm, rfl⟩
      exact ⟨i, hi, imageColorsMatch_iff.mpr hm, rfl⟩

/-- Witness for C4: the black image is retained against the white swatch at
threshold 80 because its white complementary palette slot is at distance 0. -/
theorem C4_retention_iff_witness :
    mkUnsplashResult cexBlackImage (unsplashPalette cexBlackImage) ∈
      processUnsplash [cexBlackImage] [whiteSwatch] 80 := by
  refine (C4_retention_iff.1 [cexBlackImage] [whiteSwatch] 80 _).mpr
    ⟨cexBlackImage, by simp, ⟨(unsplashPalette cexBlackImage).complementary,
      by simp [paletteColorList], whiteSwatch, by simp, ?_⟩, rfl⟩
  rw [cexBlack_palette_complementary,
    show hexToRgb ("#ffffff".data) = whiteSwatch from by decide,
    colorDistance_white_white]
  norm_num

end ColorHash

namespace ColorHash

/-! ## Claim C6: provider failure isolation -/

theorem processUnsplash_nil (targets : List ColorRGB) (threshold : ℚ) :
    processUnsplash [] targets threshold = [] := rfl

theorem processPexels_nil (targets : List ColorRGB) (threshold : ℚ) :
    processPexels [] targets threshold = [] := rfl

/-- C6: a failed call of any of the three providers contributes an empty
list: the adapter recovers the failure (nothing is propagated), the failing
provider's count in the response is 0, and the other two providers' counts
and result images are exactly what they would have been with any other
outcome of the failing provider.  For Pixabay both failure modes are
covered — absent credentials and a failed transport — and in either one the
entire response is unchanged.  Moreover the route always answers `ok` once
the input parses. -/
theorem C6_provider_failure_isolated (e : ProviderFailure) (u : List UnsplashImage)
    (p : List PexelsImage) (px : List PixabayImage) (targets : List ColorRGB)
    (threshold : ℚ) (page : ℤ) (key : List Char)
    (tpx : Except ProviderFailure (List PixabayImage)) :
    searchUnsplashModel (.error e) = [] ∧
    (coreResponse (searchUnsplashModel (.error e)) p px targets threshold page).sources.unsplash
      = 0 ∧
    (coreResponse (searchUnsplashModel (.error e)) p px targets threshold page).sources.pexels
      = (coreResponse u p px targets threshold page).sources.pexels ∧
    (coreResponse (searchUnsplashModel (.error e)) p px targets threshold page).sources.pixabay
      = (coreResponse u p px targets threshold page).sources.pixabay ∧
    (∀ img : ColorSearchResultImage,
      (img ∈ (coreResponse (searchUnsplashModel (.error e)) p px targets threshold page).images ∧
        img.source = SourceTag.pexels) ↔ img ∈ processPexels p targets threshold) ∧
    (∀ (providers : ProviderSearchFns) (req : SearchImagesRequestBody),
      parseHexColors req.hexColors ≠ [] →
        ∃ body, searchImagesPOST providers req = .ok body) ∧
    searchPexelsModel (.error e) = [] ∧
    (coreResponse u (searchPexelsModel (.error e)) px targets threshold page).sources.pexels
      = 0 ∧
    (coreResponse u (searchPexelsModel (.error e)) px targets threshold page).sources.unsplash
      = (coreResponse u p px targets threshold page).sources.unsplash ∧
    (coreResponse u (searchPexelsModel (.error e)) px targets threshold page).sources.pixabay
      = (coreResponse u p px targets threshold page).sources.pixabay ∧
    (∀ img : ColorSearchResultImage,
      (img ∈ (coreResponse u (searchPexelsModel (.error e)) px targets threshold page).images ∧
        img.source = SourceTag.unsplash) ↔ img ∈ processUnsplash u targets threshold) ∧
    searchPixabayModel none tpx = [] ∧
    searchPixabayModel (some key) (.error e) = [] ∧
    (coreResponse u p (searchPixabayModel none tpx) targets threshold page).sources.pixabay
      = 0 ∧
    coreResponse u p (searchPixabayModel none tpx) targets threshold page
      = coreResponse u p px targets threshold page ∧
    coreResponse u p (searchPixabayModel (some key) (.error e)) targets threshold page
      = coreResponse u p px targets threshold page := by
  have hpxnil : ∀ px2 : List PixabayImage,
      matchedImages u p px2 targets threshold = matchedImages u p px targets threshold := by
    intro px2
    unfold matchedImages
    rw [processPixabay_eq_nil, processPixabay_eq_nil]
  refine ⟨rfl, ?_, ?_, ?_, ?_, ?_, rfl, ?_, ?_, ?_, ?_, rfl, rfl, ?_, ?_, ?_⟩
  · show ((matchedImages [] p px targets threshold).filter
      fun img => decide (img.source = SourceTag.unsplash)).length = 0
    rw [matched_filter_unsplash, processUnsplash_nil]
    rfl
  · show ((matchedImages [] p px targets threshold).filter
        fun img => decide (img.source = SourceTag.pexels)).length
      = ((matchedImages u p px targets threshold).filter
        fun img => decide (img.source = SourceTag.pexels)).length
    rw [matched_filter_pexels, matched_filter_pexels]
  · show ((matchedImages [] p px targets threshold).filter
        fun img => decide (img.source = SourceTag.pixabay)).length
      = ((matchedImages u p px targets threshold).filter
        fun img => decide (img.source = SourceTag.pixabay)).length
    rw [matched_filter_pixabay, matched_filter_pixabay]
  · intro img
    constructor
    · rintro ⟨hmem, hsrc⟩
      have hm : img ∈ matchedImages [] p px targets threshold :=
        (coreResponse_images_perm [] p px targets threshold page).mem_iff.mp hmem
      rcases mem_matchedImages.mp hm with hu | hp
      · rw [processUnsplash_nil] at hu
        simp at hu
      · exact hp
    · intro hp
      refine ⟨?_, source_of_mem_processPexels hp⟩
      refine (coreResponse_images_perm [] p px targets threshold page).mem_iff.mpr ?_
      exact mem_matchedImages.mpr (Or.inr hp)
  · intro providers req hne
    cases h : parseHexColors req.hexColors with
    | nil => exact absurd h hne
    | cons primaryHex restColors =>
      unfold searchImagesPOST
      rw [h]
      exact ⟨_, rfl⟩
  · show ((matchedImages u [] px targets threshold).filter
      fun img => decide (img.source = SourceTag.pexels)).length = 0
    rw [matched_filter_pexels, processPexels_nil]
    rfl
  · show ((matchedImages u [] px targets threshold).filter
        fun img => decide (img.source = SourceTag.unsplash)).length
      = ((matchedImages u p px targets threshold).filter
        fun img => decide (img.source = SourceTag.unsplash)).length
    rw [matched_filter_unsplash, matched_filter_unsplash]
  · show ((matchedImages u [] px targets threshold).filter
        fun img => decide (img.source = SourceTag.pixabay)).length
      = ((matchedImages u p px targets threshold).filter
        fun img => decide (img.source = SourceTag.pixabay)).length
    rw [matched_filter_pixabay, matched_filter_pixabay]
  · intro img
    constructor
    · rintro ⟨hmem, hsrc⟩
      have hm : img ∈ matchedImages u [] px targets threshold :=
        (coreResponse_images_perm u [] px targets threshold page).mem_iff.mp hmem
      rcases mem_matchedImages.mp hm with hu | hp
      · exact hu
      · rw [processPexels_nil] at hp
        simp at hp
    · intro hu
      refine ⟨?_, source_of_mem_processUnsplash hu⟩
      refine (coreResponse_images_perm u [] px targets threshold page).mem_iff.mpr ?_
      exact mem_matchedImages.mpr (Or.inl hu)
  · show ((matchedImages u p (searchPixabayModel none tpx) targets threshold).filter
      fun img => decide (img.source = SourceTag.pixabay)).length = 0
    rw [matched_filter_pixabay]
    rfl
  · show coreResponse u p ([] : List PixabayImage) targets threshold page
      = coreResponse u p px targets threshold page
    simp only [coreResponse]
    rw [hpxnil []]
  · show coreResponse u p ([] : List PixabayImage) targets threshold page
      = coreResponse u p px targets threshold page
    simp only [coreResponse]
    rw [hpxnil []]

/-- Witness for C6: a concrete failure of each provider recovers to the
empty list — Unsplash and Pexels through the `try`/`catch`, Pixabay through
the absent-credentials short-circuit — and the route answers `ok` on the
parseable input `"#ff0000"`. -/
theorem C6_provider_failure_isolated_witness :
    searchUnsplashModel (.error (.failure [])) = [] ∧
    searchPexelsModel (.error (.failure [])) = [] ∧
    searchPixabayModel none (.ok []) = [] ∧
    ∃ body, searchImagesPOST emptyProviders ⟨("#ff0000".data), 1, 80⟩ = .ok body := by
  obtain ⟨h1, _, _, _, _, hok, h7, _, _, _, _, h12, _, _, _, _⟩ :=
    C6_provider_failure_isolated (.failure []) [] [] [] [] 80 1 [] (.ok [])
  exact ⟨h1, h7, h12, hok emptyProviders ⟨("#ff0000".data), 1, 80⟩ (by decide)⟩

end ColorHash

namespace ColorHash

/-! ## Generic lemmas about running minima -/

theorem foldl_min_le_acc {α : Type} (f : α → WithTop ℝ) :
    ∀ (l : List α) (a : WithTop ℝ), l.foldl (fun m x => min m (f x)) a ≤ a
  | [], _ => le_rfl
  | x :: l, a => le_trans (foldl_min_le_acc f l (min a (f x))) (min_le_left _ _)

theorem foldl_contract_le_acc {α : Type} (F : WithTop ℝ → α → WithTop ℝ)
    (hF : ∀ m x, F m x ≤ m) :
    ∀ (l : List α) (a : WithTop ℝ), l.foldl F a ≤ a
  | [], _ => le_rfl
  | x :: l, a => le_trans (foldl_contract_le_acc F hF l (F a x)) (hF a x)

theorem foldl_min_le_mem {α : Type} (f : α → WithTop ℝ) {x : α} :
    ∀ {l : List α} (a : WithTop ℝ), x ∈ l →
      l.foldl (fun m y => min m (f y)) a ≤ f x := by
  intro l
  induction l with
  | nil => intro a hx; simp at hx
  | cons y l ih =>
    intro a hx
    rcases List.mem_cons.mp hx with rfl | hx
    · exact le_trans (foldl_min_le_acc f l (min a (f x))) (min_le_right _ _)
    · exact ih _ hx

theorem le_foldl_min {α : Type} (f : α → WithTop ℝ) {c : WithTop ℝ} :
    ∀ {l : List α} {a : WithTop ℝ}, c ≤ a → (∀ x ∈ l, c ≤ f x) →
      c ≤ l.foldl (fun m y => min m (f y)) a := by
  intro l
  induction l with
  | nil => intro a ha _; exact ha
  | cons y l ih =>
    intro a ha hl
    exact ih (le_min ha (hl y (by simp))) fun x hx => hl x (by simp [hx])

theorem spec_fold_le {targets : List ColorRGB} {t : ColorRGB} {c2 : ColorRGB}
    (ht : t ∈ targets) :
    ∀ {cols : List ColorRGB} (a : WithTop ℝ), c2 ∈ cols →
      cols.foldl (fun m c => targets.foldl
        (fun m2 target => min m2 ((colorDistance target c : ℝ) : WithTop ℝ)) m) a ≤
      ((colorDistance t c2 : ℝ) : WithTop ℝ) := by
  intro cols
  induction cols with
  | nil => intro a hc; simp at hc
  | cons c0 rest ih =>
    intro a hc
    rcases List.mem_cons.mp hc with rfl | hc
    · simp only [List.foldl_cons]
      refine le_trans (foldl_contract_le_acc _ (fun m x => foldl_min_le_acc _ _ _) rest _) ?_
      exact foldl_min_le_mem (fun target => ((colorDistance target c2 : ℝ) : WithTop ℝ)) a ht
    · exact ih _ hc

theorem specPaletteMinScore_le {targets : List ColorRGB} {d : DominantColors}
    {c : List Char} {t : ColorRGB} (hc : c ∈ paletteColorList d) (ht : t ∈ targets) :
    specPaletteMinScore targets d ≤ ((colorDistance t (hexToRgb c) : ℝ) : WithTop ℝ) := by
  unfold specPaletteMinScore
  exact spec_fold_le ht _ (List.mem_map_of_mem hexToRgb hc)

theorem colorDistance_nonneg (c1 c2 : ColorRGB) : (0 : ℝ) ≤ colorDistance c1 c2 :=
  Real.sqrt_nonneg _

theorem spec_fold_nonneg {targets : List ColorRGB} :
    ∀ (cols : List ColorRGB) (a : WithTop ℝ), (0 : WithTop ℝ) ≤ a →
      (0 : WithTop ℝ) ≤ cols.foldl (fun m c => targets.foldl
        (fun m2 target => min m2 ((colorDistance target c : ℝ) : WithTop ℝ)) m) a
  | [], _, ha => ha
  | c0 :: rest, a, ha =>
    spec_fold_nonneg rest _
      (le_foldl_min _ ha fun x _ => by
        rw [show (0 : WithTop ℝ) = ((0 : ℝ) : WithTop ℝ) from rfl]
        exact WithTop.coe_le_coe.mpr (colorDistance_nonneg x c0))

theorem specPaletteMinScore_nonneg (targets : List ColorRGB) (d : DominantColors) :
    (0 : WithTop ℝ) ≤ specPaletteMinScore targets d := by
  unfold specPaletteMinScore
  exact spec_fold_nonneg _ _ le_top

end ColorHash

namespace ColorHash

/-! ## Claim C1: what the score actually is -/

/-- Counterexample to C1 as stated: for the request with swatch `#ffffff`
and threshold 80, the black Unsplash image is retained (its complementary
palette slot is white), the route scores it by the distance of its primary
color `#000000` to the swatch — `√195075 ≈ 441.67` — while the global
minimum distance over its nine derived-palette colors is 0.  The retained
image's score therefore does not equal the palette-wide global minimum the
claim describes. -/
theorem C1_counterexample_score_not_palette_min :
    scoredImages (matchedImages [cexBlackImage] [] [] [whiteSwatch] 80) [whiteSwatch]
      = [(mkUnsplashResult cexBlackImage (unsplashPalette cexBlackImage),
          ((Real.sqrt 195075 : ℝ) : WithTop ℝ))] ∧
    specPaletteMinScore [whiteSwatch] (unsplashPalette cexBlackImage) = 0 ∧
    ((Real.sqrt 195075 : ℝ) : WithTop ℝ) ≠ (0 : WithTop ℝ) := by
  have hdist : colorDistance whiteSwatch (hexToRgb ("#000000".data)) = Real.sqrt 195075 := by
    unfold colorDistance
    rw [show distSq whiteSwatch (hexToRgb ("#000000".data)) = 195075 from by decide]
    norm_num
  refine ⟨?_, ?_, ?_⟩
  · have hproc : processUnsplash [cexBlackImage] [whiteSwatch] 80
        = [mkUnsplashResult cexBlackImage (unsplashPalette cexBlackImage)] := by
      unfold processUnsplash buildDominantColorsFromUnsplash
      simp [List.filterMap_cons, cexBlack_matches_white]
    have hmatched : matchedImages [cexBlackImage] [] [] [whiteSwatch] 80
        = [mkUnsplashResult cexBlackImage (unsplashPalette cexBlackImage)] := by
      unfold matchedImages processPexels processPixabay
      rw [hproc]
      simp
    rw [hmatched]
    unfold scoredImages primaryScore
    simp only [List.map_cons, List.map_nil, List.foldl_cons, List.foldl_nil]
    rw [show (mkUnsplashResult cexBlackImage (unsplashPalette cexBlackImage)).color
      = ("#000000".data) from rfl]
    rw [hdist]
    rw [min_eq_right le_top]
  · refine le_antisymm ?_ (specPaletteMinScore_nonneg _ _)
    have h := specPaletteMinScore_le
      (show (unsplashPalette cexBlackImage).complementary ∈
        paletteColorList (unsplashPalette cexBlackImage) from by simp [paletteColorList])
      (show whiteSwatch ∈ [whiteSwatch] from by simp)
    rw [cexBlack_palette_complementary,
      show hexToRgb ("#ffffff".data) = whiteSwatch from by decide,
      colorDistance_white_white] at h
    exact h
  · intro hcontra
    rw [show (0 : WithTop ℝ) = ((0 : ℝ) : WithTop ℝ) from rfl] at hcontra
    have h2 : Real.sqrt 195075 = 0 := WithTop.coe_eq_coe.mp hcontra
    rw [Real.sqrt_eq_zero'] at h2
    norm_num at h2

/-- C1 (amended): each retained image's score is the minimum Euclidean RGB
distance between the image's *primary* `color` field and the requested
swatches (the palette plays no role in scoring), and the returned image
list is a permutation of the retained images sorted ascending by that
score. -/
theorem C1_amended_primary_color_scoring (u : List UnsplashImage) (p : List PexelsImage)
    (px : List PixabayImage) (targets : List ColorRGB) (threshold : ℚ) (page : ℤ) :
    (coreResponse u p px targets threshold page).images.Perm
      (matchedImages u p px targets threshold) ∧
    (coreResponse u p px targets threshold page).images.Pairwise
      (fun a b => primaryScore targets a.color ≤ primaryScore targets b.color) := by
  refine ⟨coreResponse_images_perm u p px targets threshold page, ?_⟩
  show (sortedMatched (matchedImages u p px targets threshold) targets).Pairwise _
  unfold sortedMatched
  have hsorted := @List.sorted_mergeSort (ColorSearchResultImage × WithTop ℝ) scoreLe
    (fun a b c hab hbc => by
      simp only [scoreLe, decide_eq_true_eq] at hab hbc ⊢
      exact le_trans hab hbc)
    (fun a b => by
      simp only [scoreLe, Bool.or_eq_true, decide_eq_true_eq]
      exact le_total a.2 b.2)
    (scoredImages (matchedImages u p px targets threshold) targets)
  have hmem : ∀ x ∈ List.mergeSort
      (scoredImages (matchedImages u p px targets threshold) targets) scoreLe,
      x.2 = primaryScore targets x.1.color := by
    intro x hx
    rw [List.mem_mergeSort] at hx
    unfold scoredImages at hx
    obtain ⟨img, _, rfl⟩ := List.mem_map.mp hx
    rfl
  have hsorted2 : (List.mergeSort
      (scoredImages (matchedImages u p px targets threshold) targets) scoreLe).Pairwise
      (fun a b => primaryScore targets a.1.color ≤ primaryScore targets b.1.color) := by
    refine List.Pairwise.imp_of_mem ?_ hsorted
    intro a b ha hb hab
    simp only [scoreLe, decide_eq_true_eq] at hab
    rw [hmem a ha, hmem b hb] at hab
    exact hab
  exact hsorted2.map Prod.fst fun a b h => h

end ColorHash

namespace ColorHash

/-! ## Channel bounds and state validity -/

theorem hexVal_mem (c : Char) : 0 ≤ hexVal c ∧ hexVal c ≤ 15 := by
  unfold hexVal
  split_ifs with h1 h2 h3
  · obtain ⟨ha, hb⟩ := h1
    rw [Char.le_def, UInt32.le_def, BitVec.le_def] at ha hb
    unfold Char.toNat UInt32.toNat
    have e1 : ('0'.val.toBitVec.toNat) = 48 := rfl
    have e2 : ('9'.val.toBitVec.toNat) = 57 := rfl
    omega
  · obtain ⟨ha, hb⟩ := h2
    rw [Char.le_def, UInt32.le_def, BitVec.le_def] at ha hb
    unfold Char.toNat UInt32.toNat
    have e1 : ('a'.val.toBitVec.toNat) = 97 := rfl
    have e2 : ('f'.val.toBitVec.toNat) = 102 := rfl
    omega
  · obtain ⟨ha, hb⟩ := h3
    rw [Char.le_def, UInt32.le_def, BitVec.le_def] at ha hb
    unfold Char.toNat UInt32.toNat
    have e1 : ('A'.val.toBitVec.toNat) = 65 := rfl
    have e2 : ('F'.val.toBitVec.toNat) = 70 := rfl
    omega
  · omega

theorem hexPair_mem (c1 c2 : Char) : 0 ≤ hexPair c1 c2 ∧ hexPair c1 c2 ≤ 255 := by
  unfold hexPair
  have h1 := hexVal_mem c1
  have h2 := hexVal_mem c2
  omega

theorem parseHexBody6_valid (body : List Char) : validC (parseHexBody6 body) := by
  unfold parseHexBody6 validC
  split
  · rename_i a b2 c d e f
    have h1 := hexPair_mem a b2
    have h2 := hexPair_mem c d
    have h3 := hexPair_mem e f
    exact ⟨h1.1, h1.2, h2.1, h2.2, h3.1, h3.2⟩
  · exact ⟨le_rfl, by norm_num, le_rfl, by norm_num, le_rfl, by norm_num⟩

theorem hexToRgb_valid (s : List Char) : validC (hexToRgb s) := by
  have hstruct : ∀ a b c : ℤ, 0 ≤ a → a ≤ 255 → 0 ≤ b → b ≤ 255 → 0 ≤ c → c ≤ 255 →
      validC ⟨a, b, c⟩ := fun a b c h1 h2 h3 h4 h5 h6 => ⟨h1, h2, h3, h4, h5, h6⟩
  simp only [hexToRgb]
  split_ifs
  · exact parseHexBody6_valid _
  · split
    · exact hstruct _ _ _ (hexPair_mem _ _).1 (hexPair_mem _ _).2 (hexPair_mem _ _).1
        (hexPair_mem _ _).2 (hexPair_mem _ _).1 (hexPair_mem _ _).2
    · exact hstruct 0 0 0 le_rfl (by norm_num) le_rfl (by norm_num) le_rfl (by norm_num)
  · exact hstruct 0 0 0 le_rfl (by norm_num) le_rfl (by norm_num) le_rfl (by norm_num)

theorem clamp01_mem (x : ℚ) : 0 ≤ clamp01 x ∧ clamp01 x ≤ 1 := by
  unfold clamp01
  constructor
  · exact le_max_left 0 _
  · exact max_le (by norm_num) (min_le_left 1 x)

theorem hue2rgb_mem {p q : ℚ} (hpq : p ≤ q) {t : ℚ}
    (ht1 : -(1 / 3) ≤ t) (ht2 : t ≤ 4 / 3) :
    p ≤ hue2rgb p q t ∧ hue2rgb p q t ≤ q := by
  simp only [hue2rgb]
  split_ifs <;> constructor <;> nlinarith

theorem hslToRgb_valid (hsl : HSLQ) : validQ (hslToRgb hsl) := by
  simp only [hslToRgb]
  have hh := clamp01_mem hsl.h
  have hs := clamp01_mem hsl.s
  have hl := clamp01_mem hsl.l
  set s := clamp01 hsl.s with hsdef
  set l := clamp01 hsl.l with hldef
  set h := clamp01 hsl.h with hhdef
  set q := if l < 1 / 2 then l * (1 + s) else l + s - l * s with hqdef
  have hq1 : q ≤ 1 := by
    rw [hqdef]
    split_ifs with hl2
    · nlinarith [hs.2, hl.1]
    · nlinarith [hs.2, hl.2]
  have hpq : 2 * l - q ≤ q := by
    rw [hqdef]
    split_ifs with hl2
    · nlinarith [hs.1, hl.1]
    · nlinarith [hs.1, hl.2]
  have hp0 : 0 ≤ 2 * l - q := by
    rw [hqdef]
    split_ifs with hl2
    · nlinarith [hs.2, hl.1]
    · nlinarith [hs.2, hl.2]
  by_cases hs0 : s = 0
  · rw [if_pos hs0]
    refine ⟨?_, ?_, ?_, ?_, ?_, ?_⟩ <;> dsimp only <;> nlinarith [hl.1, hl.2]
  · rw [if_neg hs0]
    have hb1 := hue2rgb_mem hpq (t := h + 1 / 3) (by linarith [hh.1]) (by linarith [hh.2])
    have hb2 := hue2rgb_mem hpq (t := h) (by linarith [hh.1]) (by linarith [hh.2])
    have hb3 := hue2rgb_mem hpq (t := h - 1 / 3) (by linarith [hh.1]) (by linarith [hh.2])
    refine ⟨?_, ?_, ?_, ?_, ?_, ?_⟩ <;> dsimp only
    · nlinarith [hb1.1, hp0]
    · nlinarith [hb1.2, hq1]
    · nlinarith [hb2.1, hp0]
    · nlinarith [hb2.2, hq1]
    · nlinarith [hb3.1, hp0]
    · nlinarith [hb3.2, hq1]

theorem ecStep_valid (dark : Bool) (c : RGBQ) : validQ (ecStep dark c) := by
  unfold ecStep tcLighten tcDarken
  split_ifs <;> exact hslToRgb_valid _

theorem iterate_ecStep_valid (dark : Bool) {c : RGBQ} (hc : validQ c) :
    ∀ k : ℕ, validQ ((ecStep dark)^[k] c)
  | 0 => hc
  | k + 1 => by
    rw [Function.iterate_succ_apply']
    exact ecStep_valid dark _

theorem jsRoundQ_mem {x : ℚ} (h0 : 0 ≤ x) (h255 : x ≤ 255) :
    0 ≤ jsRoundQ x ∧ jsRoundQ x ≤ 255 := by
  unfold jsRoundQ
  constructor
  · exact Int.le_floor.mpr (by push_cast; linarith)
  · have : ⌊x + 1 / 2⌋ < 256 := Int.floor_lt.mpr (by push_cast; linarith)
    omega

theorem roundRGB_valid {c : RGBQ} (hc : validQ c) : validC (roundRGB c) := by
  obtain ⟨h1, h2, h3, h4, h5, h6⟩ := hc
  have hr := jsRoundQ_mem h1 h2
  have hg := jsRoundQ_mem h3 h4
  have hb := jsRoundQ_mem h5 h6
  exact ⟨hr.1, hr.2, hg.1, hg.2, hb.1, hb.2⟩

theorem ofColorRGB_valid {c : ColorRGB} (hc : validC c) : validQ (ofColorRGB c) := by
  obtain ⟨h1, h2, h3, h4, h5, h6⟩ := hc
  unfold validQ ofColorRGB
  refine ⟨?_, ?_, ?_, ?_, ?_, ?_⟩ <;> dsimp only
  · exact_mod_cast h1
  · exact_mod_cast h2
  · exact_mod_cast h3
  · exact_mod_cast h4
  · exact_mod_cast h5
  · exact_mod_cast h6

end ColorHash

namespace ColorHash

/-! ## Luminance bounds -/

theorem rpow_24_pow_five {x : ℝ} (hx : 0 ≤ x) :
    (x ^ (2.4 : ℝ)) ^ (5 : ℕ) = x ^ (12 : ℕ) := by
  rw [← Real.rpow_natCast (x ^ (2.4 : ℝ)) 5, ← Real.rpow_mul hx,
    show ((2.4 : ℝ) * ((5 : ℕ) : ℝ) = (((12 : ℕ) : ℕ) : ℝ)) from by norm_num,
    Real.rpow_natCast]

theorem rpow_24_le_iff {x q : ℝ} (hx : 0 ≤ x) (hq : 0 ≤ q) :
    x ^ (2.4 : ℝ) ≤ q ↔ x ^ (12 : ℕ) ≤ q ^ (5 : ℕ) := by
  constructor
  · intro h
    rw [← rpow_24_pow_five hx]
    exact pow_le_pow_left (Real.rpow_nonneg hx _) h 5
  · intro h
    by_contra hlt
    push_neg at hlt
    have h5 : q ^ (5 : ℕ) < (x ^ (2.4 : ℝ)) ^ (5 : ℕ) :=
      pow_lt_pow_left hlt hq (by norm_num)
    rw [rpow_24_pow_five hx] at h5
    linarith

theorem le_rpow_24_iff {x q : ℝ} (hx : 0 ≤ x) (hq : 0 ≤ q) :
    q ≤ x ^ (2.4 : ℝ) ↔ q ^ (5 : ℕ) ≤ x ^ (12 : ℕ) := by
  constructor
  · intro h
    rw [← rpow_24_pow_five hx]
    exact pow_le_pow_left hq h 5
  · intro h
    by_contra hlt
    push_neg at hlt
    have h5 : (x ^ (2.4 : ℝ)) ^ (5 : ℕ) < q ^ (5 : ℕ) :=
      pow_lt_pow_left hlt (Real.rpow_nonneg hx _) (by norm_num)
    rw [rpow_24_pow_five hx] at h5
    linarith

theorem linChannel_zero : linChannel 0 = 0 := by
  unfold linChannel
  rw [if_pos (by norm_num)]
  norm_num

theorem linChannel_255 : linChannel 255 = 1 := by
  unfold linChannel
  rw [if_neg (by norm_num)]
  rw [show (((255 : ℤ) : ℝ) / 255 + 0.055) / 1.055 = 1 from by norm_num]
  exact Real.one_rpow _

theorem linChannel_nonneg {k : ℤ} (h0 : 0 ≤ k) : 0 ≤ linChannel k := by
  unfold linChannel
  split_ifs
  · positivity
  · exact Real.rpow_nonneg (by positivity) _

theorem linChannel_le_one {k : ℤ} (h0 : 0 ≤ k) (h255 : k ≤ 255) : linChannel k ≤ 1 := by
  have hkR : ((k : ℝ)) ≤ 255 := by exact_mod_cast h255
  have hkR0 : (0 : ℝ) ≤ ((k : ℝ)) := by exact_mod_cast h0
  unfold linChannel
  split_ifs with hbr
  · have hk10 : k ≤ 10 := by
      by_contra hk
      push_neg at hk
      have h11 : (11 : ℚ) ≤ ((k : ℚ)) := by exact_mod_cast hk
      have := hbr
      linarith
    have hk10R : ((k : ℝ)) ≤ 10 := by exact_mod_cast hk10
    calc ((k : ℝ)) / 255 / 12.92 ≤ 10 / 255 / 12.92 := by gcongr
      _ ≤ 1 := by norm_num
  · refine Real.rpow_le_one (by positivity) ?_ (by norm_num)
    rw [div_le_one (by norm_num : (0 : ℝ) < 1.055)]
    linarith

theorem luminance_mem {c : ColorRGB} (hc : validC c) :
    0 ≤ luminance c ∧ luminance c ≤ 1 := by
  obtain ⟨h1, h2, h3, h4, h5, h6⟩ := hc
  unfold luminance
  have r1 := linChannel_nonneg h1
  have r2 := linChannel_le_one h1 h2
  have g1 := linChannel_nonneg h3
  have g2 := linChannel_le_one h3 h4
  have b1 := linChannel_nonneg h5
  have b2 := linChannel_le_one h5 h6
  constructor <;> nlinarith

theorem luminance_black : luminance ⟨0, 0, 0⟩ = 0 := by
  unfold luminance
  dsimp only
  rw [linChannel_zero]
  ring

theorem luminance_white : luminance ⟨255, 255, 255⟩ = 1 := by
  unfold luminance
  dsimp only
  rw [linChannel_255]
  norm_num

theorem luminance_red : luminance ⟨255, 0, 0⟩ = 0.2126 := by
  unfold luminance
  dsimp only
  rw [linChannel_255, linChannel_zero]
  norm_num

theorem readability_of_le {c1 c2 : ColorRGB} (h : luminance c2 ≤ luminance c1) :
    readability c1 c2 = (luminance c1 + 0.05) / (luminance c2 + 0.05) := by
  unfold readability
  rw [max_eq_left h, min_eq_right h]

theorem readability_black_red : readability ⟨0, 0, 0⟩ ⟨255, 0, 0⟩ = 5.252 := by
  unfold readability
  rw [luminance_black, luminance_red]
  rw [max_eq_right (by norm_num), min_eq_left (by norm_num)]
  norm_num

theorem readability_white_red : readability ⟨255, 255, 255⟩ ⟨255, 0, 0⟩ = 1.05 / 0.2626 := by
  unfold readability
  rw [luminance_white, luminance_red]
  rw [max_eq_left (by norm_num), min_eq_right (by norm_num)]
  norm_num

theorem readability_lt_21_red {c : ColorRGB} (hc : validC c) :
    readability c ⟨255, 0, 0⟩ < 21 := by
  have hL := luminance_mem hc
  unfold readability
  rw [luminance_red]
  rcases le_total (luminance c) 0.2126 with h | h
  · rw [max_eq_right h, min_eq_left h]
    have hd : (0 : ℝ) < luminance c + 0.05 := by linarith [hL.1]
    rw [div_lt_iff hd]
    nlinarith [hL.1]
  · rw [max_eq_left h, min_eq_right h]
    rw [div_lt_iff (by norm_num : (0 : ℝ) < (0.2126 : ℝ) + 0.05)]
    nlinarith [hL.2]

end ColorHash

namespace ColorHash

/-! ## Loop structure of `ensureContrast` -/

theorem ecLoopCount_le (bg : ColorRGB) (target : ℝ) (dark : Bool) :
    ∀ (n : ℕ) (c : RGBQ), ecLoopCount bg target dark n c ≤ n
  | 0, _ => le_rfl
  | n + 1, c => by
    unfold ecLoopCount
    split_ifs
    · exact Nat.succ_le_succ (ecLoopCount_le bg target dark n (ecStep dark c))
    · exact Nat.zero_le _

theorem ecLoop_eq_iterate (bg : ColorRGB) (target : ℝ) (dark : Bool) :
    ∀ (n : ℕ) (c : RGBQ),
      ecLoop bg target dark n c = (ecStep dark)^[ecLoopCount bg target dark n c] c
  | 0, c => rfl
  | n + 1, c => by
    unfold ecLoop ecLoopCount
    split_ifs
    · rw [ecLoop_eq_iterate bg target dark n (ecStep dark c),
        Function.iterate_succ_apply]
    · rfl

theorem ecLoop_eq_iterate_of_path_lt {bg : ColorRGB} {target : ℝ} {dark : Bool} :
    ∀ {n : ℕ} {c : RGBQ},
      (∀ j < n, readability (roundRGB ((ecStep dark)^[j] c)) bg < target) →
      ecLoop bg target dark n c = (ecStep dark)^[n] c := by
  intro n
  induction n with
  | zero => intro c _; rfl
  | succ n ih =>
    intro c h
    unfold ecLoop
    rw [if_pos (by simpa using h 0 (Nat.succ_pos n))]
    rw [ih fun j hj => by
      rw [← Function.iterate_succ_apply]
      exact h (j + 1) (Nat.succ_lt_succ hj)]
    rw [← Function.iterate_succ_apply]

theorem ecLoop_stops_met {bg : ColorRGB} {target : ℝ} {dark : Bool} :
    ∀ {n : ℕ} {c : RGBQ}, ecLoopCount bg target dark n c < n →
      ¬ readability
          (roundRGB ((ecStep dark)^[ecLoopCount bg target dark n c] c)) bg < target := by
  intro n
  induction n with
  | zero => intro c h; omega
  | succ n ih =>
    intro c h
    unfold ecLoopCount at h ⊢
    split_ifs at h ⊢ with hcond
    · rw [Function.iterate_succ_apply]
      exact ih (by omega)
    · simpa using hcond

/-! ## Claim C8: the iteration cap -/

/-- C8: for every foreground, background, and target ratio, the correction
loop of `ensureContrast` executes at most 100 iterations, and the function
always terminates: its result is either the unchanged foreground or the hex
rendering of the iteration-count-th lighten/darken iterate, with that count
never exceeding 100 — also when the target ratio is unreachable in the
chosen stepping direction. -/
theorem C8_loop_capped_at_100 (fg bg : List Char) (target : ℝ) :
    ecLoopCount (hexToRgb bg) target (tcIsDark (hexToRgb bg)) 100
      (ofColorRGB (hexToRgb fg)) ≤ 100 ∧
    (ensureContrast fg bg target = fg ∨
      ensureContrast fg bg target =
        toHexString ((ecStep (tcIsDark (hexToRgb bg)))^[ecLoopCount (hexToRgb bg) target
          (tcIsDark (hexToRgb bg)) 100 (ofColorRGB (hexToRgb fg))]
          (ofColorRGB (hexToRgb fg)))) := by
  refine ⟨ecLoopCount_le _ _ _ 100 _, ?_⟩
  unfold ensureContrast
  split_ifs
  · exact Or.inl rfl
  · exact Or.inr (congrArg toHexString (ecLoop_eq_iterate _ _ _ 100 _))

end ColorHash

namespace ColorHash

/-! ## The lighten path of a gray color -/

theorem bound255_of_mem {x : ℚ} (h0 : 0 ≤ x) (h255 : x ≤ 255) :
    bound255 x = x / 255 := by
  unfold bound255
  rw [max_eq_right h0, min_eq_right h255]

theorem rgbToHsl_gray {x : ℚ} (h0 : 0 ≤ x) (h1 : x ≤ 1) :
    rgbToHsl ⟨255 * x, 255 * x, 255 * x⟩ = ⟨0, 0, x⟩ := by
  unfold rgbToHsl
  have hb : bound255 (255 * x) = x := by
    rw [bound255_of_mem (by linarith) (by linarith)]
    field_simp
  dsimp only
  rw [hb]
  rw [max_self, max_self, min_self, min_self, if_pos rfl]
  congr 1
  ring

theorem clamp01_of_mem {x : ℚ} (h0 : 0 ≤ x) (h1 : x ≤ 1) : clamp01 x = x := by
  unfold clamp01
  rw [min_eq_right h1, max_eq_right h0]

theorem hslToRgb_gray {l : ℚ} (h0 : 0 ≤ l) (h1 : l ≤ 1) :
    hslToRgb ⟨0, 0, l⟩ = ⟨255 * l, 255 * l, 255 * l⟩ := by
  unfold hslToRgb
  dsimp only
  rw [show clamp01 0 = 0 from clamp01_of_mem le_rfl (by norm_num)]
  rw [clamp01_of_mem h0 h1]
  rw [if_pos rfl]
  congr 1 <;> ring

theorem ecStep_true_gray {x : ℚ} (h0 : 0 ≤ x) (h1 : x ≤ 1) :
    ecStep true ⟨255 * x, 255 * x, 255 * x⟩ =
      ⟨255 * clamp01 (x + 1 / 100), 255 * clamp01 (x + 1 / 100),
       255 * clamp01 (x + 1 / 100)⟩ := by
  unfold ecStep tcLighten
  rw [if_pos rfl]
  rw [rgbToHsl_gray h0 h1]
  dsimp only
  exact hslToRgb_gray (clamp01_mem _).1 (clamp01_mem _).2

theorem iterate_ecStep_black (k : ℕ) (hk : k ≤ 100) :
    (ecStep true)^[k] (ofColorRGB ⟨0, 0, 0⟩) =
      ⟨255 * ((k : ℚ) / 100), 255 * ((k : ℚ) / 100), 255 * ((k : ℚ) / 100)⟩ := by
  induction k with
  | zero =>
    norm_num
    rfl
  | succ k ih =>
    have hk' : k ≤ 100 := by omega
    rw [Function.iterate_succ_apply', ih hk']
    have hx0 : (0 : ℚ) ≤ (k : ℚ) / 100 := by positivity
    have hx1 : ((k : ℚ)) / 100 ≤ 1 := by
      rw [div_le_one (by norm_num : (0 : ℚ) < 100)]
      exact_mod_cast hk'
    rw [ecStep_true_gray hx0 hx1]
    have hcl : clamp01 ((k : ℚ) / 100 + 1 / 100) = ((k : ℚ) + 1) / 100 := by
      rw [show ((k : ℚ)) / 100 + 1 / 100 = ((k : ℚ) + 1) / 100 from by ring]
      refine clamp01_of_mem (by positivity) ?_
      rw [div_le_one (by norm_num : (0 : ℚ) < 100)]
      have : ((k : ℚ)) ≤ 99 := by exact_mod_cast (by omega : k ≤ 99)
      linarith
    rw [hcl]
    have hcast : ((k + 1 : ℕ) : ℚ) = ((k : ℚ)) + 1 := by push_cast; ring
    rw [hcast]

theorem iterate_ecStep_black_valid (k : ℕ) (hk : k ≤ 100) :
    validQ ((ecStep true)^[k] (ofColorRGB ⟨0, 0, 0⟩)) := by
  rw [iterate_ecStep_black k hk]
  have h1 : (0 : ℚ) ≤ ((k : ℚ)) / 100 := by positivity
  have h2 : ((k : ℚ)) / 100 ≤ 1 := by
    rw [div_le_one (by norm_num : (0 : ℚ) < 100)]
    exact_mod_cast hk
  exact ⟨by linarith, by linarith, by linarith, by linarith, by linarith, by linarith⟩

end ColorHash

namespace ColorHash

/-! ## Claim C2: `ensureContrast` can end below the initial contrast -/

theorem jsRoundQ_intCast (n : ℤ) : jsRoundQ ((n : ℚ)) = n := by
  unfold jsRoundQ
  rw [add_comm, Int.floor_add_int]
  rw [show ⌊(1 : ℚ) / 2⌋ = 0 from by
    rw [Int.floor_eq_zero_iff]
    constructor <;> norm_num]
  ring

theorem tcIsDark_red : tcIsDark ⟨255, 0, 0⟩ = true := by
  unfold tcIsDark
  rw [decide_eq_true_eq]
  unfold tcBrightness
  norm_num

/-- Counterexample to C2 as stated: on `fg = #000000`, `bg = #ff0000`,
`r = 21`, the loop direction is "lighten" (red counts as dark), the target
is unreachable, and after 100 lightening steps the result is `#ffffff`,
whose contrast against red (≈ 4.00) is *lower* than the initial contrast of
black against red (5.252). -/
theorem C2_counterexample_contrast_drops :
    ensureContrast ("#000000".data) ("#ff0000".data) 21 = ("#ffffff".data) ∧
    getContrastRatio ("#ffffff".data) ("#ff0000".data) <
      getContrastRatio ("#000000".data) ("#ff0000".data) := by
  have hfg : hexToRgb ("#000000".data) = ⟨0, 0, 0⟩ := by decide
  have hbg : hexToRgb ("#ff0000".data) = ⟨255, 0, 0⟩ := by decide
  have hwhite : hexToRgb ("#ffffff".data) = ⟨255, 255, 255⟩ := by decide
  constructor
  · unfold ensureContrast
    rw [hfg, hbg]
    rw [if_neg (by rw [readability_black_red]; norm_num)]
    rw [tcIsDark_red]
    rw [ecLoop_eq_iterate_of_path_lt (fun j hj => by
      exact readability_lt_21_red
        (roundRGB_valid (iterate_ecStep_black_valid j (by omega))))]
    rw [iterate_ecStep_black 100 le_rfl]
    rw [show ((100 : ℕ) : ℚ) / 100 = 1 from by norm_num]
    unfold toHexString roundRGB
    dsimp only
    rw [show (255 : ℚ) * 1 = ((255 : ℤ) : ℚ) from by norm_num]
    rw [jsRoundQ_intCast]
    decide
  · unfold getContrastRatio
    rw [hfg, hbg, hwhite, readability_black_red, readability_white_red]
    norm_num

/-- C2 (amended): `ensureContrast` returns `fg` unchanged when the initial
contrast already meets the target; otherwise it returns the hex rendering
of the `k`-th lighten/darken iterate of `fg` for some `k ≤ 100`, where the
loop stopped either because the `k`-th iterate meets the target or because
the 100-iteration cap was exhausted — in the latter case the returned color
is the last iterate, not the best one, and its contrast against `bg` can be
lower than the initial contrast of `fg`. -/
theorem C2_amended_last_iterate (fg bg : List Char) (target : ℝ) :
    (target ≤ getContrastRatio fg bg → ensureContrast fg bg target = fg) ∧
    (getContrastRatio fg bg < target →
      ∃ k ≤ 100,
        ensureContrast fg bg target =
          toHexString ((ecStep (tcIsDark (hexToRgb bg)))^[k] (ofColorRGB (hexToRgb fg))) ∧
        (target ≤ readability (roundRGB ((ecStep (tcIsDark (hexToRgb bg)))^[k]
            (ofColorRGB (hexToRgb fg)))) (hexToRgb bg) ∨ k = 100)) := by
  constructor
  · intro h
    unfold getContrastRatio at h
    unfold ensureContrast
    rw [if_pos h]
  · intro h
    unfold getContrastRatio at h
    refine ⟨ecLoopCount (hexToRgb bg) target (tcIsDark (hexToRgb bg)) 100
      (ofColorRGB (hexToRgb fg)), ecLoopCount_le _ _ _ _ _, ?_, ?_⟩
    · unfold ensureContrast
      rw [if_neg (not_le.mpr h)]
      exact congrArg toHexString (ecLoop_eq_iterate _ _ _ 100 _)
    · by_cases hk : ecLoopCount (hexToRgb bg) target (tcIsDark (hexToRgb bg)) 100
        (ofColorRGB (hexToRgb fg)) = 100
      · exact Or.inr hk
      · exact Or.inl (not_lt.mp (ecLoop_stops_met
          (lt_of_le_of_ne (ecLoopCount_le _ _ _ _ _) hk)))

theorem luminance_black_le_white :
    luminance ⟨0, 0, 0⟩ ≤ luminance ⟨255, 255, 255⟩ := by
  rw [luminance_black, luminance_white]
  norm_num

/-- Witness for the amended C2: white on black already meets a target of
4.5 (its contrast ratio is 21), so `ensureContrast` returns it unchanged. -/
theorem C2_amended_last_iterate_witness :
    ensureContrast ("#ffffff".data) ("#000000".data) 4.5 = ("#ffffff".data) := by
  refine (C2_amended_last_iterate ("#ffffff".data) ("#000000".data) 4.5).1 ?_
  unfold getContrastRatio
  rw [show hexToRgb ("#ffffff".data) = ⟨255, 255, 255⟩ from by decide,
    show hexToRgb ("#000000".data) = ⟨0, 0, 0⟩ from by decide]
  rw [readability_of_le luminance_black_le_white, luminance_black, luminance_white]
  norm_num

end ColorHash

namespace ColorHash

/-! ## Hex rendering round-trip and rounding helpers -/

theorem hexDigitOfVal_isHex {v : ℤ} (h0 : 0 ≤ v) (h15 : v ≤ 15) :
    isHexDigitCh (hexDigitOfVal v) = true := by
  interval_cases v <;> decide

theorem hexVal_hexDigitOfVal {v : ℤ} (h0 : 0 ≤ v) (h15 : v ≤ 15) :
    hexVal (hexDigitOfVal v) = v := by
  interval_cases v <;> decide

theorem hexPair_twoHexDigits {v : ℤ} (h0 : 0 ≤ v) (h255 : v ≤ 255) :
    hexPair (hexDigitOfVal (v / 16 % 16)) (hexDigitOfVal (v % 16)) = v := by
  unfold hexPair
  rw [hexVal_hexDigitOfVal (by omega) (by omega), hexVal_hexDigitOfVal (by omega) (by omega)]
  omega

theorem hexToRgb_rgbToHex {c : ColorRGB} (hc : validC c) : hexToRgb (rgbToHex c) = c := by
  obtain ⟨h1, h2, h3, h4, h5, h6⟩ := hc
  have hx : ∀ v : ℤ, 0 ≤ v → v ≤ 255 →
      isHexDigitCh (hexDigitOfVal (v / 16 % 16)) = true ∧
      isHexDigitCh (hexDigitOfVal (v % 16)) = true := fun v hv0 hv1 =>
    ⟨hexDigitOfVal_isHex (by omega) (by omega), hexDigitOfVal_isHex (by omega) (by omega)⟩
  obtain ⟨hr1, hr2⟩ := hx c.r h1 h2
  obtain ⟨hg1, hg2⟩ := hx c.g h3 h4
  obtain ⟨hb1, hb2⟩ := hx c.b h5 h6
  unfold rgbToHex twoHexDigits hexToRgb stripHash
  simp only [List.cons_append, List.nil_append, List.head?_cons, List.tail_cons]
  rw [if_pos trivial]
  rw [if_pos ⟨by simp, by simp [hr1, hr2, hg1, hg2, hb1, hb2]⟩]
  simp only [parseHexBody6]
  rw [hexPair_twoHexDigits h1 h2, hexPair_twoHexDigits h3 h4, hexPair_twoHexDigits h5 h6]

theorem roundRGB_ofColorRGB (c : ColorRGB) : roundRGB (ofColorRGB c) = c := by
  unfold roundRGB ofColorRGB
  dsimp only
  rw [jsRoundQ_intCast, jsRoundQ_intCast, jsRoundQ_intCast]

theorem hexToRgb_toHexString {c : RGBQ} (hc : validQ c) :
    hexToRgb (toHexString c) = roundRGB c := by
  unfold toHexString
  exact hexToRgb_rgbToHex (roundRGB_valid hc)

theorem one_le_readability {c1 c2 : ColorRGB} (h1 : validC c1) (h2 : validC c2) :
    1 ≤ readability c1 c2 := by
  have m1 := luminance_mem h1
  have m2 := luminance_mem h2
  unfold readability
  have hmin : (0 : ℝ) ≤ min (luminance c1) (luminance c2) := le_min m1.1 m2.1
  rw [le_div_iff (by norm_num; linarith : (0 : ℝ) < min (luminance c1) (luminance c2) + 0.05)]
  rw [one_mul]
  exact add_le_add_right min_le_max _

theorem clamp01_mono {x y : ℚ} (h : x ≤ y) : clamp01 x ≤ clamp01 y :=
  max_le_max le_rfl (min_le_min le_rfl h)

theorem clamp01_le_of_le {x a : ℚ} (hx : x ≤ a) (ha : 0 ≤ a) : clamp01 x ≤ a := by
  unfold clamp01
  exact max_le ha (le_trans (min_le_right _ _) hx)

theorem le_clamp01_of_le {x a : ℚ} (hx : a ≤ x) (ha : a ≤ 1) : a ≤ clamp01 x := by
  unfold clamp01
  exact le_trans (le_min ha hx) (le_max_right _ _)

theorem getD_map_range {α : Type} (f : ℕ → α) {n i : ℕ} (h : i < n) (d : α) :
    ((List.range n).map f).getD i d = f i := by
  rw [List.getD_eq_getElem _ _ (by simpa using h)]
  simp

theorem jsRoundQ_le_of {x : ℚ} {n : ℤ} (h : x < (n : ℚ) + 1 / 2) : jsRoundQ x ≤ n := by
  unfold jsRoundQ
  have hlt : ⌊x + 1 / 2⌋ < n + 1 := Int.floor_lt.mpr (by push_cast; linarith)
  omega

theorem le_jsRoundQ_of {x : ℚ} {n : ℤ} (h : (n : ℚ) ≤ x + 1 / 2) : n ≤ jsRoundQ x :=
  Int.le_floor.mpr h

theorem jsRoundQ_mono {x y : ℚ} (h : x ≤ y) : jsRoundQ x ≤ jsRoundQ y :=
  Int.floor_le_floor (by linarith)

end ColorHash

namespace ColorHash

/-! ## Exact values of `hue2rgb` on each branch -/

theorem hue2rgb_ramp_up {p q t0 : ℚ} (h1 : 0 ≤ t0) (h2 : t0 ≤ 1 / 6) :
    hue2rgb p q t0 = p + (q - p) * 6 * t0 := by
  simp only [hue2rgb]
  rw [if_neg (by linarith : ¬ t0 < 0), if_neg (by linarith : ¬ t0 > 1)]
  rcases lt_or_eq_of_le h2 with h | h
  · rw [if_pos h]
  · rw [if_neg (by rw [h]; norm_num), if_pos (by rw [h]; norm_num), h]
    ring

theorem hue2rgb_eq_q {p q t0 : ℚ} (h1 : 1 / 6 ≤ t0) (h2 : t0 ≤ 1 / 2) :
    hue2rgb p q t0 = q := by
  simp only [hue2rgb]
  rw [if_neg (by linarith : ¬ t0 < 0), if_neg (by linarith : ¬ t0 > 1),
    if_neg (not_lt.mpr h1)]
  rcases lt_or_eq_of_le h2 with h | h
  · rw [if_pos h]
  · rw [if_neg (by rw [h]; norm_num), if_pos (by rw [h]; norm_num), h]
    ring

theorem hue2rgb_ramp_down {p q t0 : ℚ} (h1 : 1 / 2 ≤ t0) (h2 : t0 ≤ 2 / 3) :
    hue2rgb p q t0 = p + (q - p) * (2 / 3 - t0) * 6 := by
  simp only [hue2rgb]
  rw [if_neg (by linarith : ¬ t0 < 0), if_neg (by linarith : ¬ t0 > 1),
    if_neg (by linarith : ¬ t0 < 1 / 6), if_neg (not_lt.mpr h1)]
  rcases lt_or_eq_of_le h2 with h | h
  · rw [if_pos h]
  · rw [if_neg (by rw [h]; norm_num), h]
    ring

theorem hue2rgb_eq_p_high {p q t0 : ℚ} (h1 : 2 / 3 ≤ t0) (h2 : t0 ≤ 1) :
    hue2rgb p q t0 = p := by
  simp only [hue2rgb]
  rw [if_neg (by linarith : ¬ t0 < 0), if_neg (by linarith : ¬ t0 > 1),
    if_neg (by linarith : ¬ t0 < 1 / 6), if_neg (by linarith : ¬ t0 < 1 / 2),
    if_neg (not_lt.mpr h1)]

theorem hue2rgb_eq_p_neg {p q t0 : ℚ} (h1 : -(1 / 3) ≤ t0) (h2 : t0 < 0) :
    hue2rgb p q t0 = p := by
  simp only [hue2rgb]
  rw [if_pos h2, if_neg (by linarith : ¬ t0 + 1 > 1),
    if_neg (by linarith : ¬ t0 + 1 < 1 / 6), if_neg (by linarith : ¬ t0 + 1 < 1 / 2),
    if_neg (by linarith : ¬ t0 + 1 < 2 / 3)]

theorem hue2rgb_eq_q_wrap {p q t0 : ℚ} (h1 : 7 / 6 ≤ t0) (h2 : t0 ≤ 3 / 2) :
    hue2rgb p q t0 = q := by
  simp only [hue2rgb]
  rw [if_neg (by linarith : ¬ t0 < 0), if_pos (by linarith : t0 > 1),
    if_neg (by linarith : ¬ t0 - 1 < 1 / 6)]
  rcases lt_or_eq_of_le h2 with h | h
  · rw [if_pos (by linarith : t0 - 1 < 1 / 2)]
  · rw [if_neg (by rw [h]; norm_num), if_pos (by rw [h]; norm_num), h]
    ring

theorem hue2rgb_ramp_up_wrap {p q t0 : ℚ} (h1 : 1 ≤ t0) (h2 : t0 ≤ 7 / 6) :
    hue2rgb p q t0 = p + (q - p) * 6 * (t0 - 1) := by
  simp only [hue2rgb]
  rw [if_neg (by linarith : ¬ t0 < 0)]
  rcases eq_or_lt_of_le h1 with h | h
  · rw [if_neg (by rw [← h]; norm_num : ¬ t0 > 1), if_neg (by rw [← h]; norm_num),
      if_neg (by rw [← h]; norm_num), if_neg (by rw [← h]; norm_num), ← h]
    ring
  · rw [if_pos h]
    rcases lt_or_eq_of_le h2 with h2' | h2'
    · rw [if_pos (by linarith : t0 - 1 < 1 / 6)]
    · rw [if_neg (by rw [h2']; norm_num), if_pos (by rw [h2']; norm_num), h2']
      ring

/-- Unfolded form of `hslToRgb` on a non-gray, in-range HSL triple, with the
`q` helper value abstracted. -/
theorem hslToRgb_expand {h s l q : ℚ} (hh0 : 0 ≤ h) (hh1 : h ≤ 1) (hs0 : s ≠ 0)
    (hsm0 : 0 ≤ s) (hsm1 : s ≤ 1) (hl0 : 0 ≤ l) (hl1 : l ≤ 1)
    (hq : (if l < 1 / 2 then l * (1 + s) else l + s - l * s) = q) :
    hslToRgb ⟨h, s, l⟩ =
      ⟨hue2rgb (2 * l - q) q (h + 1 / 3) * 255, hue2rgb (2 * l - q) q h * 255,
       hue2rgb (2 * l - q) q (h - 1 / 3) * 255⟩ := by
  simp only [hslToRgb]
  rw [clamp01_of_mem hh0 hh1, clamp01_of_mem hsm0 hsm1, clamp01_of_mem hl0 hl1,
    if_neg hs0, hq]

theorem bound255_mem (x : ℚ) : 0 ≤ bound255 x ∧ bound255 x ≤ 1 := by
  unfold bound255
  constructor
  · have h1 : (0 : ℚ) ≤ max 0 x := le_max_left _ _
    have h2 : (0 : ℚ) ≤ min 255 (max 0 x) := le_min (by norm_num) h1
    positivity
  · rw [div_le_one (by norm_num : (0 : ℚ) < 255)]
    exact min_le_left _ _

end ColorHash

namespace ColorHash

/-! ## `hslToRgb` inverts `rgbToHsl` on valid colors -/

theorem rgbToHsl_sl_mem (c : RGBQ) :
    0 ≤ (rgbToHsl c).s ∧ (rgbToHsl c).s ≤ 1 ∧ 0 ≤ (rgbToHsl c).l ∧ (rgbToHsl c).l ≤ 1 := by
  obtain ⟨hr0, hr1⟩ := bound255_mem c.r
  obtain ⟨hg0, hg1⟩ := bound255_mem c.g
  obtain ⟨hb0, hb1⟩ := bound255_mem c.b
  simp only [rgbToHsl]
  set r := bound255 c.r with hrdef
  set g := bound255 c.g with hgdef
  set b := bound255 c.b with hbdef
  set M := max r (max g b) with hMdef
  set m := min r (min g b) with hmdef
  have hM1 : M ≤ 1 := max_le hr1 (max_le hg1 hb1)
  have hm0 : 0 ≤ m := le_min hr0 (le_min hg0 hb0)
  have hmM : m ≤ M := le_trans (min_le_left _ _) (le_max_left _ _)
  by_cases hMm : M = m
  · rw [if_pos hMm]
    dsimp only
    exact ⟨le_rfl, by norm_num, by linarith, by linarith⟩
  · rw [if_neg hMm]
    dsimp only
    have hd : 0 < M - m := sub_pos.mpr (lt_of_le_of_ne hmM fun h => hMm h.symm)
    split_ifs with hl2
    · have h2lt : 0 < 2 - M - m := by linarith
      exact ⟨div_nonneg (by linarith) (by linarith), (div_le_one h2lt).mpr (by linarith),
        by linarith, by linarith⟩
    · have hsum : 0 < M + m := by linarith
      exact ⟨div_nonneg (by linarith) (by linarith), (div_le_one hsum).mpr (by linarith),
        by linarith, by linarith⟩

theorem hslToRgb_rgbToHsl_aux {r g b : ℚ} (hr0 : 0 ≤ r) (hr1 : r ≤ 1) (hg0 : 0 ≤ g)
    (hg1 : g ≤ 1) (hb0 : 0 ≤ b) (hb1 : b ≤ 1) :
    hslToRgb (rgbToHsl ⟨255 * r, 255 * g, 255 * b⟩) = ⟨255 * r, 255 * g, 255 * b⟩ := by
  have hbx : ∀ x : ℚ, 0 ≤ x → x ≤ 1 → bound255 (255 * x) = x := fun x h0 h1 => by
    rw [bound255_of_mem (by linarith) (by linarith)]
    field_simp
  simp only [rgbToHsl]
  rw [hbx r hr0 hr1, hbx g hg0 hg1, hbx b hb0 hb1]
  set M := max r (max g b) with hMdef
  set m := min r (min g b) with hmdef
  have hrM : r ≤ M := le_max_left _ _
  have hgM : g ≤ M := le_trans (le_max_left _ _) (le_max_right _ _)
  have hbM : b ≤ M := le_trans (le_max_right _ _) (le_max_right _ _)
  have hmr : m ≤ r := min_le_left _ _
  have hmg : m ≤ g := le_trans (min_le_right _ _) (min_le_left _ _)
  have hmb : m ≤ b := le_trans (min_le_right _ _) (min_le_right _ _)
  have hM1 : M ≤ 1 := max_le hr1 (max_le hg1 hb1)
  have hm0 : 0 ≤ m := le_min hr0 (le_min hg0 hb0)
  have hmM : m ≤ M := le_trans hmr hrM
  by_cases hMm : M = m
  · rw [if_pos hMm]
    have hrm : r = m := le_antisymm (hMm ▸ hrM) hmr
    have hgm : g = m := le_antisymm (hMm ▸ hgM) hmg
    have hbm : b = m := le_antisymm (hMm ▸ hbM) hmb
    have hl : (M + m) / 2 = m := by rw [hMm]; ring
    rw [hl, hslToRgb_gray hm0 (le_trans hmM hM1), hrm, hgm, hbm]
  · rw [if_neg hMm]
    have hd : 0 < M - m := sub_pos.mpr (lt_of_le_of_ne hmM fun h => hMm h.symm)
    have hdne : M - m ≠ 0 := ne_of_gt hd
    have hsum_pos : 0 < M + m := by linarith
    have hsum_lt2 : M + m < 2 := by linarith
    set s := if (M + m) / 2 > 1 / 2 then (M - m) / (2 - M - m) else (M - m) / (M + m)
      with hsdef
    have hs_pos : 0 < s := by
      rw [hsdef]
      split_ifs with hhl
      · exact div_pos hd (by linarith)
      · exact div_pos hd hsum_pos
    have hs1 : s ≤ 1 := by
      rw [hsdef]
      split_ifs with hhl
      · rw [div_le_one (by linarith)]
        linarith
      · rw [div_le_one hsum_pos]
        linarith
    have hl0 : 0 ≤ (M + m) / 2 := by linarith
    have hl1 : (M + m) / 2 ≤ 1 := by linarith
    have hq : (if (M + m) / 2 < 1 / 2 then (M + m) / 2 * (1 + s)
        else (M + m) / 2 + s - (M + m) / 2 * s) = M := by
      rw [hsdef]
      rcases lt_trichotomy ((M + m) / 2) (1 / 2) with hlt | heq | hgt
      · rw [if_neg (by linarith : ¬ (M + m) / 2 > 1 / 2), if_pos hlt]
        field_simp
        ring
      · have hsum1 : M + m = 1 := by linarith
        rw [if_neg (by linarith : ¬ (M + m) / 2 > 1 / 2),
          if_neg (by linarith : ¬ (M + m) / 2 < 1 / 2), hsum1]
        field_simp
        linarith
      · rw [if_pos hgt, if_neg (by linarith : ¬ (M + m) / 2 < 1 / 2)]
        have h2ne : (2 : ℚ) - M - m ≠ 0 := ne_of_gt (by linarith)
        field_simp [h2ne]
        ring
    have hp : 2 * ((M + m) / 2) - M = m := by ring
    by_cases hMr : M = r
    · rw [if_pos hMr]
      by_cases hgb : g < b
      · rw [if_pos hgb]
        have hgr : g ≤ r := by rw [← hMr]; exact hgM
        have hmeq : m = g := by
          rw [hmdef, min_eq_left (le_of_lt hgb)]
          exact min_eq_right hgr
        set X := (g - b) / (M - m) with hXdef
        have hXm1 : -1 ≤ X := by rw [hXdef, le_div_iff hd]; linarith
        have hX0 : X < 0 := by rw [hXdef]; exact div_neg_of_neg_of_pos (by linarith) hd
        have hXmul : X * (M - m) = g - b := by rw [hXdef]; exact div_mul_cancel₀ _ hdne
        have hh0 : 0 ≤ (X + 6) / 6 := by linarith
        have hh1 : (X + 6) / 6 ≤ 1 := by linarith
        rw [hslToRgb_expand hh0 hh1 (ne_of_gt hs_pos) (le_of_lt hs_pos) hs1 hl0 hl1 hq, hp]
        simp only [RGBQ.mk.injEq]
        refine ⟨?_, ?_, ?_⟩
        · rw [hue2rgb_eq_q_wrap (by linarith) (by linarith), hMr]
          ring
        · rw [hue2rgb_eq_p_high (by linarith) (by linarith), hmeq]
          ring
        · rw [hue2rgb_ramp_down (by linarith) (by linarith)]
          linear_combination (255 : ℚ) * hmeq - 255 * hXmul
      · rw [if_neg hgb]
        have hbg2 : b ≤ g := not_lt.mp hgb
        have hbr2 : b ≤ r := by rw [← hMr]; exact hbM
        have hmeq : m = b := by
          rw [hmdef, min_eq_right hbg2]
          exact min_eq_right hbr2
        set X := (g - b) / (M - m) with hXdef
        have hX0 : 0 ≤ X := by rw [hXdef]; exact div_nonneg (by linarith) (le_of_lt hd)
        have hX1 : X ≤ 1 := by rw [hXdef, div_le_one hd]; linarith
        have hXmul : X * (M - m) = g - b := by rw [hXdef]; exact div_mul_cancel₀ _ hdne
        have hh0 : 0 ≤ (X + 0) / 6 := by linarith
        have hh1 : (X + 0) / 6 ≤ 1 := by linarith
        rw [hslToRgb_expand hh0 hh1 (ne_of_gt hs_pos) (le_of_lt hs_pos) hs1 hl0 hl1 hq, hp]
        simp only [RGBQ.mk.injEq]
        refine ⟨?_, ?_, ?_⟩
        · rw [hue2rgb_eq_q (by linarith) (by linarith), hMr]
          ring
        · rw [hue2rgb_ramp_up (by linarith) (by linarith)]
          linear_combination (255 : ℚ) * hmeq + 255 * hXmul
        · rw [hue2rgb_eq_p_neg (by linarith) (by linarith), hmeq]
          ring
    · rw [if_neg hMr]
      by_cases hMg : M = g
      · rw [if_pos hMg]
        have hbg2 : b ≤ g := by rw [← hMg]; exact hbM
        have hmrb : m = min r b := by rw [hmdef, min_eq_right hbg2]
        set X := (b - r) / (M - m) with hXdef
        have hXm1 : -1 ≤ X := by rw [hXdef, le_div_iff hd]; linarith
        have hX1 : X ≤ 1 := by rw [hXdef, div_le_one hd]; linarith
        have hXmul : X * (M - m) = b - r := by rw [hXdef]; exact div_mul_cancel₀ _ hdne
        have hh0 : 0 ≤ (X + 2) / 6 := by linarith
        have hh1 : (X + 2) / 6 ≤ 1 := by linarith
        rw [hslToRgb_expand hh0 hh1 (ne_of_gt hs_pos) (le_of_lt hs_pos) hs1 hl0 hl1 hq, hp]
        simp only [RGBQ.mk.injEq]
        refine ⟨?_, ?_, ?_⟩
        · by_cases hbr : b < r
          · have hmeq : m = b := by rw [hmrb]; exact min_eq_right (le_of_lt hbr)
            have hXneg : X < 0 := by
              rw [hXdef]
              exact div_neg_of_neg_of_pos (by linarith) hd
            rw [hue2rgb_ramp_down (by linarith) (by linarith)]
            linear_combination (255 : ℚ) * hmeq - 255 * hXmul
          · have hrb : r ≤ b := not_lt.mp hbr
            have hmeq : m = r := by rw [hmrb]; exact min_eq_left hrb
            have hX0 : 0 ≤ X := by
              rw [hXdef]
              exact div_nonneg (by linarith) (le_of_lt hd)
            rw [hue2rgb_eq_p_high (by linarith) (by linarith), hmeq]
            ring
        · rw [hue2rgb_eq_q (by linarith) (by linarith), hMg]
          ring
        · by_cases hbr : b < r
          · have hmeq : m = b := by rw [hmrb]; exact min_eq_right (le_of_lt hbr)
            have hXneg : X < 0 := by
              rw [hXdef]
              exact div_neg_of_neg_of_pos (by linarith) hd
            rw [hue2rgb_eq_p_neg (by linarith) (by linarith), hmeq]
            ring
          · have hrb : r ≤ b := not_lt.mp hbr
            have hmeq : m = r := by rw [hmrb]; exact min_eq_left hrb
            have hX0 : 0 ≤ X := by
              rw [hXdef]
              exact div_nonneg (by linarith) (le_of_lt hd)
            rw [hue2rgb_ramp_up (by linarith) (by linarith)]
            linear_combination (255 : ℚ) * hmeq + 255 * hXmul
      · rw [if_neg hMg]
        have hMb2 : M = b := by
          rcases max_choice r (max g b) with h | h
          · exact absurd h hMr
          · rcases max_choice g b with h2 | h2
            · exact absurd (h.trans h2) hMg
            · exact h.trans h2
        have hgb2 : g ≤ b := by rw [← hMb2]; exact hgM
        have hmrg : m = min r g := by rw [hmdef, min_eq_left hgb2]
        set X := (r - g) / (M - m) with hXdef
        have hXm1 : -1 ≤ X := by rw [hXdef, le_div_iff hd]; linarith
        have hX1 : X ≤ 1 := by rw [hXdef, div_le_one hd]; linarith
        have hXmul : X * (M - m) = r - g := by rw [hXdef]; exact div_mul_cancel₀ _ hdne
        have hh0 : 0 ≤ (X + 4) / 6 := by linarith
        have hh1 : (X + 4) / 6 ≤ 1 := by linarith
        rw [hslToRgb_expand hh0 hh1 (ne_of_gt hs_pos) (le_of_lt hs_pos) hs1 hl0 hl1 hq, hp]
        simp only [RGBQ.mk.injEq]
        refine ⟨?_, ?_, ?_⟩
        · by_cases hrg : g < r
          · have hmeq : m = g := by rw [hmrg]; exact min_eq_right (le_of_lt hrg)
            have hXpos : 0 < X := by rw [hXdef]; exact div_pos (by linarith) hd
            rw [hue2rgb_ramp_up_wrap (by linarith) (by linarith)]
            linear_combination (255 : ℚ) * hmeq + 255 * hXmul
          · have hgr : r ≤ g := not_lt.mp hrg
            have hmeq : m = r := by rw [hmrg]; exact min_eq_left hgr
            have hXle : X ≤ 0 := by rw [hXdef, div_le_iff hd]; linarith
            rw [hue2rgb_eq_p_high (by linarith) (by linarith), hmeq]
            ring
        · by_cases hrg : g < r
          · have hmeq : m = g := by rw [hmrg]; exact min_eq_right (le_of_lt hrg)
            have hXpos : 0 < X := by rw [hXdef]; exact div_pos (by linarith) hd
            rw [hue2rgb_eq_p_high (by linarith) (by linarith), hmeq]
            ring
          · have hgr : r ≤ g := not_lt.mp hrg
            have hmeq : m = r := by rw [hmrg]; exact min_eq_left hgr
            have hXle : X ≤ 0 := by rw [hXdef, div_le_iff hd]; linarith
            rw [hue2rgb_ramp_down (by linarith) (by linarith)]
            linear_combination (255 : ℚ) * hmeq - 255 * hXmul
        · rw [hue2rgb_eq_q (by linarith) (by linarith), hMb2]
          ring

theorem hslToRgb_rgbToHsl {c : RGBQ} (hc : validQ c) : hslToRgb (rgbToHsl c) = c := by
  obtain ⟨h1, h2, h3, h4, h5, h6⟩ := hc
  have h255 : (0 : ℚ) < 255 := by norm_num
  have key := hslToRgb_rgbToHsl_aux (r := c.r / 255) (g := c.g / 255) (b := c.b / 255)
    (by positivity) ((div_le_one h255).mpr h2) (by positivity) ((div_le_one h255).mpr h4)
    (by positivity) ((div_le_one h255).mpr h6)
  have e : ∀ x : ℚ, 255 * (x / 255) = x := fun x => by field_simp
  simp only [e] at key
  exact key

end ColorHash

namespace ColorHash

/-! ## Channelwise monotonicity of the lighten/darken step -/

theorem hue2rgb_mono {p q pp qq t0 : ℚ} (hp : p ≤ pp) (hq : q ≤ qq)
    (ht1 : -(1 / 3) ≤ t0) (ht2 : t0 ≤ 4 / 3) :
    hue2rgb p q t0 ≤ hue2rgb pp qq t0 := by
  simp only [hue2rgb]
  split_ifs <;> nlinarith

theorem hslToRgb_mono_l {u s l k : ℚ} (hll : clamp01 l ≤ clamp01 k) :
    (hslToRgb ⟨u, s, l⟩).r ≤ (hslToRgb ⟨u, s, k⟩).r ∧
    (hslToRgb ⟨u, s, l⟩).g ≤ (hslToRgb ⟨u, s, k⟩).g ∧
    (hslToRgb ⟨u, s, l⟩).b ≤ (hslToRgb ⟨u, s, k⟩).b := by
  obtain ⟨hS0, hS1⟩ := clamp01_mem s
  obtain ⟨hL0, hL1⟩ := clamp01_mem l
  obtain ⟨hP0, hP1⟩ := clamp01_mem k
  obtain ⟨hH0, hH1⟩ := clamp01_mem u
  simp only [hslToRgb]
  set H := clamp01 u with hHdef
  set S := clamp01 s with hSdef
  set L := clamp01 l with hLdef
  set P := clamp01 k with hPdef
  by_cases hS : S = 0
  · rw [if_pos hS, if_pos hS]
    dsimp only
    refine ⟨?_, ?_, ?_⟩ <;> nlinarith
  · rw [if_neg hS, if_neg hS]
    dsimp only
    have hq12 : (if L < 1 / 2 then L * (1 + S) else L + S - L * S) ≤
        (if P < 1 / 2 then P * (1 + S) else P + S - P * S) := by
      split_ifs with h1 h2 h2
      · nlinarith [mul_nonneg (sub_nonneg.mpr hll) (by linarith : (0 : ℚ) ≤ 1 + S)]
      · nlinarith [mul_nonneg (sub_nonneg.mpr hll) (by linarith : (0 : ℚ) ≤ 1 - S),
          mul_nonneg hS0 (by linarith : (0 : ℚ) ≤ 1 - 2 * L)]
      · linarith
      · nlinarith [mul_nonneg (sub_nonneg.mpr hll) (by linarith : (0 : ℚ) ≤ 1 - S)]
    have hp12 : 2 * L - (if L < 1 / 2 then L * (1 + S) else L + S - L * S) ≤
        2 * P - (if P < 1 / 2 then P * (1 + S) else P + S - P * S) := by
      split_ifs with h1 h2 h2
      · nlinarith [mul_nonneg (sub_nonneg.mpr hll) (by linarith : (0 : ℚ) ≤ 1 - S)]
      · nlinarith [mul_nonneg (sub_nonneg.mpr hll) (by linarith : (0 : ℚ) ≤ 1 - S),
          mul_nonneg hS0 (by linarith [not_lt.mp h2] : (0 : ℚ) ≤ 2 * P - 1)]
      · linarith
      · nlinarith [mul_nonneg (sub_nonneg.mpr hll) (by linarith : (0 : ℚ) ≤ 1 + S)]
    refine ⟨?_, ?_, ?_⟩ <;>
      exact mul_le_mul_of_nonneg_right
        (hue2rgb_mono hp12 hq12 (by linarith) (by linarith)) (by norm_num)

theorem tcLighten_ge_self {c : RGBQ} (hc : validQ c) {a : ℚ} (ha : 0 ≤ a) :
    c.r ≤ (tcLighten a c).r ∧ c.g ≤ (tcLighten a c).g ∧ c.b ≤ (tcLighten a c).b := by
  have hrt := hslToRgb_rgbToHsl hc
  obtain ⟨hs0, hs1, hl0, hl1⟩ := rgbToHsl_sl_mem c
  have hmono := hslToRgb_mono_l (u := (rgbToHsl c).h) (s := (rgbToHsl c).s)
    (l := (rgbToHsl c).l) (k := clamp01 ((rgbToHsl c).l + a / 100))
    (by
      rw [clamp01_of_mem hl0 hl1, clamp01_of_mem (clamp01_mem _).1 (clamp01_mem _).2]
      exact le_clamp01_of_le (by linarith) hl1)
  rw [show (⟨(rgbToHsl c).h, (rgbToHsl c).s, (rgbToHsl c).l⟩ : HSLQ) = rgbToHsl c from rfl,
    hrt] at hmono
  unfold tcLighten
  exact hmono

theorem tcDarken_le_self {c : RGBQ} (hc : validQ c) {a : ℚ} (ha : 0 ≤ a) :
    (tcDarken a c).r ≤ c.r ∧ (tcDarken a c).g ≤ c.g ∧ (tcDarken a c).b ≤ c.b := by
  have hrt := hslToRgb_rgbToHsl hc
  obtain ⟨hs0, hs1, hl0, hl1⟩ := rgbToHsl_sl_mem c
  have hmono := hslToRgb_mono_l (u := (rgbToHsl c).h) (s := (rgbToHsl c).s)
    (l := clamp01 ((rgbToHsl c).l - a / 100)) (k := (rgbToHsl c).l)
    (by
      rw [clamp01_of_mem hl0 hl1, clamp01_of_mem (clamp01_mem _).1 (clamp01_mem _).2]
      exact clamp01_le_of_le (by linarith) hl0)
  rw [show (⟨(rgbToHsl c).h, (rgbToHsl c).s, (rgbToHsl c).l⟩ : HSLQ) = rgbToHsl c from rfl,
    hrt] at hmono
  unfold tcDarken
  exact hmono

theorem ecStep_true_ge_self {c : RGBQ} (hc : validQ c) :
    c.r ≤ (ecStep true c).r ∧ c.g ≤ (ecStep true c).g ∧ c.b ≤ (ecStep true c).b := by
  have h := tcLighten_ge_self hc (a := 1) (by norm_num)
  simpa [ecStep] using h

theorem ecStep_false_le_self {c : RGBQ} (hc : validQ c) :
    (ecStep false c).r ≤ c.r ∧ (ecStep false c).g ≤ c.g ∧ (ecStep false c).b ≤ c.b := by
  have h := tcDarken_le_self hc (a := 1) (by norm_num)
  simpa [ecStep] using h

theorem iterate_ecStep_true_mono {c : RGBQ} (hc : validQ c) {j k : ℕ} (hjk : j ≤ k) :
    ((ecStep true)^[j] c).r ≤ ((ecStep true)^[k] c).r ∧
    ((ecStep true)^[j] c).g ≤ ((ecStep true)^[k] c).g ∧
    ((ecStep true)^[j] c).b ≤ ((ecStep true)^[k] c).b := by
  have hstep : ∀ n : ℕ,
      ((ecStep true)^[n] c).r ≤ ((ecStep true)^[n + 1] c).r ∧
      ((ecStep true)^[n] c).g ≤ ((ecStep true)^[n + 1] c).g ∧
      ((ecStep true)^[n] c).b ≤ ((ecStep true)^[n + 1] c).b := by
    intro n
    rw [Function.iterate_succ_apply']
    exact ecStep_true_ge_self (iterate_ecStep_valid true hc n)
  exact ⟨(@monotone_nat_of_le_succ ℚ _ (fun n => ((ecStep true)^[n] c).r)
      (fun n => (hstep n).1)) hjk,
    (@monotone_nat_of_le_succ ℚ _ (fun n => ((ecStep true)^[n] c).g)
      (fun n => (hstep n).2.1)) hjk,
    (@monotone_nat_of_le_succ ℚ _ (fun n => ((ecStep true)^[n] c).b)
      (fun n => (hstep n).2.2)) hjk⟩

theorem iterate_ecStep_false_anti {c : RGBQ} (hc : validQ c) {j k : ℕ} (hjk : j ≤ k) :
    ((ecStep false)^[k] c).r ≤ ((ecStep false)^[j] c).r ∧
    ((ecStep false)^[k] c).g ≤ ((ecStep false)^[j] c).g ∧
    ((ecStep false)^[k] c).b ≤ ((ecStep false)^[j] c).b := by
  have hstep : ∀ n : ℕ,
      ((ecStep false)^[n + 1] c).r ≤ ((ecStep false)^[n] c).r ∧
      ((ecStep false)^[n + 1] c).g ≤ ((ecStep false)^[n] c).g ∧
      ((ecStep false)^[n + 1] c).b ≤ ((ecStep false)^[n] c).b := by
    intro n
    rw [Function.iterate_succ_apply']
    exact ecStep_false_le_self (iterate_ecStep_valid false hc n)
  exact ⟨(@antitone_nat_of_succ_le ℚ _ (fun n => ((ecStep false)^[n] c).r)
      (fun n => (hstep n).1)) hjk,
    (@antitone_nat_of_succ_le ℚ _ (fun n => ((ecStep false)^[n] c).g)
      (fun n => (hstep n).2.1)) hjk,
    (@antitone_nat_of_succ_le ℚ _ (fun n => ((ecStep false)^[n] c).b)
      (fun n => (hstep n).2.2)) hjk⟩

end ColorHash

namespace ColorHash

/-! ## Monotonicity and numeric bounds for WCAG luminance -/

theorem linChannel_mono {k kp : ℤ} (h0 : 0 ≤ k) (h255 : kp ≤ 255) (hkk : k ≤ kp) :
    linChannel k ≤ linChannel kp := by
  have hkR : (k : ℝ) ≤ (kp : ℝ) := by exact_mod_cast hkk
  have hk0R : (0 : ℝ) ≤ (k : ℝ) := by exact_mod_cast h0
  unfold linChannel
  split_ifs with h1 h2 h2
  · gcongr
  · have hk10 : k ≤ 10 := by
      by_contra hk
      push_neg at hk
      have h11 : (11 : ℚ) ≤ (k : ℚ) := by exact_mod_cast hk
      have h11d : (11 : ℚ) / 255 ≤ (k : ℚ) / 255 :=
        (div_le_div_right (by norm_num : (0 : ℚ) < 255)).mpr h11
      have hgap : (3928 : ℚ) / 100000 < 11 / 255 := by norm_num
      linarith
    have hkp11 : 11 ≤ kp := by
      by_contra hk
      push_neg at hk
      have h10 : (kp : ℚ) ≤ 10 := by exact_mod_cast (by omega : kp ≤ 10)
      have h10d : (kp : ℚ) / 255 ≤ 10 / 255 :=
        (div_le_div_right (by norm_num : (0 : ℚ) < 255)).mpr h10
      have hgap : (10 : ℚ) / 255 ≤ 3928 / 100000 := by norm_num
      exact h2 (by linarith)
    have hkpR : (11 : ℝ) ≤ (kp : ℝ) := by exact_mod_cast hkp11
    have hx11 : (0 : ℝ) ≤ ((11 : ℝ) / 255 + 0.055) / 1.055 := by norm_num
    have hcross : (10 : ℝ) / 255 / 12.92 ≤
        (((11 : ℝ) / 255 + 0.055) / 1.055) ^ (2.4 : ℝ) := by
      rw [le_rpow_24_iff hx11 (by norm_num)]
      norm_num
    have hmono2 : (((11 : ℝ) / 255 + 0.055) / 1.055) ^ (2.4 : ℝ) ≤
        (((kp : ℝ) / 255 + 0.055) / 1.055) ^ (2.4 : ℝ) := by
      refine Real.rpow_le_rpow hx11 ?_ (by norm_num)
      gcongr
    have hk10R : (k : ℝ) ≤ 10 := by exact_mod_cast hk10
    calc (k : ℝ) / 255 / 12.92 ≤ 10 / 255 / 12.92 := by gcongr
      _ ≤ _ := le_trans hcross hmono2
  · have hQ : (k : ℚ) / 255 ≤ (kp : ℚ) / 255 :=
      (div_le_div_right (by norm_num : (0 : ℚ) < 255)).mpr (by exact_mod_cast hkk)
    exact absurd (le_trans hQ h2) h1
  · refine Real.rpow_le_rpow (by positivity) ?_ (by norm_num)
    gcongr

theorem linChannel_le_24 {k : ℤ} (h0 : 0 ≤ k) (h24 : k ≤ 24) : linChannel k ≤ 1 / 100 := by
  refine le_trans (linChannel_mono h0 (by norm_num) h24) ?_
  unfold linChannel
  rw [if_neg (by norm_num)]
  rw [rpow_24_le_iff (by norm_num) (by norm_num)]
  norm_num

theorem le_linChannel_112 {k : ℤ} (h112 : 112 ≤ k) (h255 : k ≤ 255) :
    3 / 20 ≤ linChannel k := by
  refine le_trans ?_ (linChannel_mono (by norm_num) h255 h112)
  unfold linChannel
  rw [if_neg (by norm_num)]
  rw [le_rpow_24_iff (by norm_num) (by norm_num)]
  norm_num

theorem le_linChannel_241 {k : ℤ} (h241 : 241 ≤ k) (h255 : k ≤ 255) :
    17 / 20 ≤ linChannel k := by
  refine le_trans ?_ (linChannel_mono (by norm_num) h255 h241)
  unfold linChannel
  rw [if_neg (by norm_num)]
  rw [le_rpow_24_iff (by norm_num) (by norm_num)]
  norm_num

theorem linChannel_le_143 {k : ℤ} (h0 : 0 ≤ k) (h143 : k ≤ 143) :
    linChannel k ≤ 3 / 10 := by
  refine le_trans (linChannel_mono h0 (by norm_num) h143) ?_
  unfold linChannel
  rw [if_neg (by norm_num)]
  rw [rpow_24_le_iff (by norm_num) (by norm_num)]
  norm_num

theorem luminance_le_of_channels_le_24 {c : ColorRGB} (hc : validC c)
    (h : c.r ≤ 24 ∧ c.g ≤ 24 ∧ c.b ≤ 24) : luminance c ≤ 1 / 100 := by
  obtain ⟨h1, h2, h3, h4, h5, h6⟩ := hc
  unfold luminance
  have r1 := linChannel_le_24 h1 h.1
  have g1 := linChannel_le_24 h3 h.2.1
  have b1 := linChannel_le_24 h5 h.2.2
  linarith

theorem le_luminance_of_channels_ge_112 {c : ColorRGB} (hc : validC c)
    (h : 112 ≤ c.r ∧ 112 ≤ c.g ∧ 112 ≤ c.b) : 3 / 20 ≤ luminance c := by
  obtain ⟨h1, h2, h3, h4, h5, h6⟩ := hc
  unfold luminance
  have r1 := le_linChannel_112 h.1 h2
  have g1 := le_linChannel_112 h.2.1 h4
  have b1 := le_linChannel_112 h.2.2 h6
  linarith

theorem le_luminance_of_channels_ge_241 {c : ColorRGB} (hc : validC c)
    (h : 241 ≤ c.r ∧ 241 ≤ c.g ∧ 241 ≤ c.b) : 17 / 20 ≤ luminance c := by
  obtain ⟨h1, h2, h3, h4, h5, h6⟩ := hc
  unfold luminance
  have r1 := le_linChannel_241 h.1 h2
  have g1 := le_linChannel_241 h.2.1 h4
  have b1 := le_linChannel_241 h.2.2 h6
  linarith

theorem luminance_le_of_channels_le_143 {c : ColorRGB} (hc : validC c)
    (h : c.r ≤ 143 ∧ c.g ≤ 143 ∧ c.b ≤ 143) : luminance c ≤ 3 / 10 := by
  obtain ⟨h1, h2, h3, h4, h5, h6⟩ := hc
  unfold luminance
  have r1 := linChannel_le_143 h1 h.1
  have g1 := linChannel_le_143 h3 h.2.1
  have b1 := linChannel_le_143 h5 h.2.2
  linarith

theorem luminance_mono {c cp : ColorRGB} (hc : validC c) (hcp : validC cp)
    (h : c.r ≤ cp.r ∧ c.g ≤ cp.g ∧ c.b ≤ cp.b) : luminance c ≤ luminance cp := by
  obtain ⟨h1, h2, h3, h4, h5, h6⟩ := hc
  obtain ⟨g1, g2, g3, g4, g5, g6⟩ := hcp
  unfold luminance
  have m1 := linChannel_mono h1 g2 h.1
  have m2 := linChannel_mono h3 g4 h.2.1
  have m3 := linChannel_mono h5 g6 h.2.2
  linarith

theorem readability_left_mono {bg a b2 : ColorRGB} (h0 : 0 ≤ luminance bg)
    (h1 : luminance bg ≤ luminance a) (h2 : luminance a ≤ luminance b2) :
    readability a bg ≤ readability b2 bg := by
  unfold readability
  rw [max_eq_left h1, min_eq_right h1, max_eq_left (le_trans h1 h2),
    min_eq_right (le_trans h1 h2)]
  exact (div_le_div_right (by norm_num; linarith)).mpr (by linarith)

theorem readability_left_anti {bg a b2 : ColorRGB} (h0 : 0 ≤ luminance b2)
    (h2 : luminance b2 ≤ luminance a) (h1 : luminance a ≤ luminance bg) :
    readability a bg ≤ readability b2 bg := by
  unfold readability
  rw [max_eq_right h1, min_eq_left h1, max_eq_right (le_trans h2 h1),
    min_eq_left (le_trans h2 h1)]
  rw [div_le_div_iff (by norm_num; linarith) (by norm_num; linarith)]
  nlinarith

theorem tcIsDark_of_channels_le_24 {c : ColorRGB}
    (h : c.r ≤ 24 ∧ c.g ≤ 24 ∧ c.b ≤ 24) : tcIsDark c = true := by
  unfold tcIsDark
  rw [decide_eq_true_eq]
  unfold tcBrightness
  rw [div_lt_iff (by norm_num : (0 : ℚ) < 1000)]
  have hZ : c.r * 299 + c.g * 587 + c.b * 114 < 128000 := by omega
  calc ((c.r * 299 + c.g * 587 + c.b * 114 : ℤ) : ℚ) < (128000 : ℚ) := by exact_mod_cast hZ
    _ = 128 * 1000 := by norm_num

theorem tcIsDark_false_of_channels_ge_241 {c : ColorRGB}
    (h : 241 ≤ c.r ∧ 241 ≤ c.g ∧ 241 ≤ c.b) : tcIsDark c = false := by
  unfold tcIsDark
  rw [decide_eq_false_iff_not]
  unfold tcBrightness
  rw [not_lt, le_div_iff (by norm_num : (0 : ℚ) < 1000)]
  have hZ : 128000 ≤ c.r * 299 + c.g * 587 + c.b * 114 := by omega
  calc (128 : ℚ) * 1000 = (128000 : ℚ) := by norm_num
    _ ≤ _ := by exact_mod_cast hZ

end ColorHash

namespace ColorHash

/-! ## Channel ranges of `hslToRgb` and of the ramp candidates -/

theorem hslToRgb_channels_le {x : HSLQ} (h2 : clamp01 x.l < 1 / 2) :
    (hslToRgb x).r ≤ 255 * (clamp01 x.l * (1 + clamp01 x.s)) ∧
    (hslToRgb x).g ≤ 255 * (clamp01 x.l * (1 + clamp01 x.s)) ∧
    (hslToRgb x).b ≤ 255 * (clamp01 x.l * (1 + clamp01 x.s)) := by
  obtain ⟨hS0, hS1⟩ := clamp01_mem x.s
  obtain ⟨hL0, hL1⟩ := clamp01_mem x.l
  obtain ⟨hH0, hH1⟩ := clamp01_mem x.h
  simp only [hslToRgb]
  set H := clamp01 x.h with hHdef
  set S := clamp01 x.s with hSdef
  set L := clamp01 x.l with hLdef
  by_cases hS : S = 0
  · rw [if_pos hS]
    dsimp only
    rw [hS]
    refine ⟨?_, ?_, ?_⟩ <;> nlinarith
  · rw [if_neg hS]
    dsimp only
    rw [if_pos h2]
    have hpq : 2 * L - L * (1 + S) ≤ L * (1 + S) := by nlinarith
    have hb1 := hue2rgb_mem hpq (t := H + 1 / 3) (by linarith) (by linarith)
    have hb2 := hue2rgb_mem hpq (t := H) (by linarith) (by linarith)
    have hb3 := hue2rgb_mem hpq (t := H - 1 / 3) (by linarith) (by linarith)
    exact ⟨by nlinarith [hb1.2], by nlinarith [hb2.2], by nlinarith [hb3.2]⟩

theorem le_hslToRgb_channels {x : HSLQ} (h2 : 1 / 2 ≤ clamp01 x.l) :
    255 * (clamp01 x.l - clamp01 x.s * (1 - clamp01 x.l)) ≤ (hslToRgb x).r ∧
    255 * (clamp01 x.l - clamp01 x.s * (1 - clamp01 x.l)) ≤ (hslToRgb x).g ∧
    255 * (clamp01 x.l - clamp01 x.s * (1 - clamp01 x.l)) ≤ (hslToRgb x).b := by
  obtain ⟨hS0, hS1⟩ := clamp01_mem x.s
  obtain ⟨hL0, hL1⟩ := clamp01_mem x.l
  obtain ⟨hH0, hH1⟩ := clamp01_mem x.h
  simp only [hslToRgb]
  set H := clamp01 x.h with hHdef
  set S := clamp01 x.s with hSdef
  set L := clamp01 x.l with hLdef
  by_cases hS : S = 0
  · rw [if_pos hS]
    dsimp only
    rw [hS]
    refine ⟨?_, ?_, ?_⟩ <;> nlinarith
  · rw [if_neg hS]
    dsimp only
    rw [if_neg (not_lt.mpr h2)]
    have hpq : 2 * L - (L + S - L * S) ≤ L + S - L * S := by nlinarith
    have hb1 := hue2rgb_mem hpq (t := H + 1 / 3) (by linarith) (by linarith)
    have hb2 := hue2rgb_mem hpq (t := H) (by linarith) (by linarith)
    have hb3 := hue2rgb_mem hpq (t := H - 1 / 3) (by linarith) (by linarith)
    exact ⟨by nlinarith [hb1.1], by nlinarith [hb2.1], by nlinarith [hb3.1]⟩

theorem tcLighten_channels_ge {v : List Char} {A : ℚ} (h72 : 72 ≤ A) :
    255 * (11 / 25 : ℚ) ≤ (tcLighten A (tcParse v)).r ∧
    255 * (11 / 25 : ℚ) ≤ (tcLighten A (tcParse v)).g ∧
    255 * (11 / 25 : ℚ) ≤ (tcLighten A (tcParse v)).b := by
  obtain ⟨hs0, hs1, hl0, hl1⟩ := rgbToHsl_sl_mem (tcParse v)
  unfold tcLighten
  have hL : 18 / 25 ≤ clamp01 ((rgbToHsl (tcParse v)).l + A / 100) :=
    le_clamp01_of_le (by linarith) (by norm_num)
  have hkey := le_hslToRgb_channels
    (x := ⟨(rgbToHsl (tcParse v)).h, (rgbToHsl (tcParse v)).s,
      clamp01 ((rgbToHsl (tcParse v)).l + A / 100)⟩)
    (by
      dsimp only
      rw [clamp01_of_mem (clamp01_mem _).1 (clamp01_mem _).2]
      linarith)
  dsimp only at hkey
  rw [clamp01_of_mem (clamp01_mem _).1 (clamp01_mem _).2, clamp01_of_mem hs0 hs1] at hkey
  obtain ⟨hcl0, hcl1⟩ := clamp01_mem ((rgbToHsl (tcParse v)).l + A / 100)
  refine ⟨le_trans ?_ hkey.1, le_trans ?_ hkey.2.1, le_trans ?_ hkey.2.2⟩ <;>
    nlinarith [mul_nonneg (by linarith : (0 : ℚ) ≤ clamp01 ((rgbToHsl (tcParse v)).l +
      A / 100) - 18 / 25) (by linarith : (0 : ℚ) ≤ 1 + (rgbToHsl (tcParse v)).s)]

theorem tcDarken_channels_le {v : List Char} {A : ℚ} (h72 : 72 ≤ A) :
    (tcDarken A (tcParse v)).r ≤ 255 * (14 / 25 : ℚ) ∧
    (tcDarken A (tcParse v)).g ≤ 255 * (14 / 25 : ℚ) ∧
    (tcDarken A (tcParse v)).b ≤ 255 * (14 / 25 : ℚ) := by
  obtain ⟨hs0, hs1, hl0, hl1⟩ := rgbToHsl_sl_mem (tcParse v)
  unfold tcDarken
  have hL : clamp01 ((rgbToHsl (tcParse v)).l - A / 100) ≤ 7 / 25 :=
    clamp01_le_of_le (by linarith) (by norm_num)
  have hkey := hslToRgb_channels_le
    (x := ⟨(rgbToHsl (tcParse v)).h, (rgbToHsl (tcParse v)).s,
      clamp01 ((rgbToHsl (tcParse v)).l - A / 100)⟩)
    (by
      dsimp only
      rw [clamp01_of_mem (clamp01_mem _).1 (clamp01_mem _).2]
      linarith)
  dsimp only at hkey
  rw [clamp01_of_mem (clamp01_mem _).1 (clamp01_mem _).2, clamp01_of_mem hs0 hs1] at hkey
  obtain ⟨hcl0, hcl1⟩ := clamp01_mem ((rgbToHsl (tcParse v)).l - A / 100)
  refine ⟨le_trans hkey.1 ?_, le_trans hkey.2.1 ?_, le_trans hkey.2.2 ?_⟩ <;>
    nlinarith [mul_nonneg (by linarith : (0 : ℚ) ≤ 7 / 25 - clamp01 ((rgbToHsl
      (tcParse v)).l - A / 100)) (by linarith : (0 : ℚ) ≤ 1 + (rgbToHsl (tcParse v)).s)]

theorem tints_candidate_ge {vb : List Char} {A : ℚ} (h72 : 72 ≤ A) :
    112 ≤ (hexToRgb (toHexString (tcLighten A (tcParse vb)))).r ∧
    112 ≤ (hexToRgb (toHexString (tcLighten A (tcParse vb)))).g ∧
    112 ≤ (hexToRgb (toHexString (tcLighten A (tcParse vb)))).b := by
  have hvalid : validQ (tcLighten A (tcParse vb)) := by
    unfold tcLighten
    exact hslToRgb_valid _
  rw [hexToRgb_toHexString hvalid]
  obtain ⟨c1, c2, c3⟩ := tcLighten_channels_ge (v := vb) h72
  unfold roundRGB
  dsimp only
  have hcast : ((112 : ℤ) : ℚ) = 112 := by norm_num
  refine ⟨le_jsRoundQ_of ?_, le_jsRoundQ_of ?_, le_jsRoundQ_of ?_⟩ <;> rw [hcast] <;>
    linarith

theorem shades_candidate_le {vb : List Char} {A : ℚ} (h72 : 72 ≤ A) :
    (hexToRgb (toHexString (tcDarken A (tcParse vb)))).r ≤ 143 ∧
    (hexToRgb (toHexString (tcDarken A (tcParse vb)))).g ≤ 143 ∧
    (hexToRgb (toHexString (tcDarken A (tcParse vb)))).b ≤ 143 := by
  have hvalid : validQ (tcDarken A (tcParse vb)) := by
    unfold tcDarken
    exact hslToRgb_valid _
  rw [hexToRgb_toHexString hvalid]
  obtain ⟨c1, c2, c3⟩ := tcDarken_channels_le (v := vb) h72
  unfold roundRGB
  dsimp only
  have hcast : ((143 : ℤ) : ℚ) = 143 := by norm_num
  refine ⟨jsRoundQ_le_of ?_, jsRoundQ_le_of ?_, jsRoundQ_le_of ?_⟩ <;> rw [hcast] <;>
    linarith

theorem afbHeadingCandidate_dark_eq (vb : List Char) :
    afbHeadingCandidate vb true = toHexString (tcLighten 96 (tcParse vb)) := by
  unfold afbHeadingCandidate
  rw [if_pos rfl]
  unfold generateTints
  simp [List.range_succ]
  norm_num

theorem afbBodyCandidate_dark_eq (vb : List Char) :
    afbBodyCandidate vb true = toHexString (tcLighten 72 (tcParse vb)) := by
  unfold afbBodyCandidate
  rw [if_pos rfl]
  unfold generateTints
  simp [List.range_succ]
  norm_num

theorem afbHeadingCandidate_light_eq (vb : List Char) :
    afbHeadingCandidate vb false = toHexString (tcDarken 96 (tcParse vb)) := by
  unfold afbHeadingCandidate
  rw [if_neg Bool.false_ne_true]
  unfold generateShades
  simp [List.range_succ]
  norm_num

theorem afbBodyCandidate_light_eq (vb : List Char) :
    afbBodyCandidate vb false = toHexString (tcDarken 72 (tcParse vb)) := by
  unfold afbBodyCandidate
  rw [if_neg Bool.false_ne_true]
  unfold generateShades
  simp [List.range_succ]
  norm_num

theorem afb_dark_bg_channels (vb : List Char) (v : Vibe) :
    (hexToRgb (afbBackground vb .dark v)).r ≤ 24 ∧
    (hexToRgb (afbBackground vb .dark v)).g ≤ 24 ∧
    (hexToRgb (afbBackground vb .dark v)).b ≤ 24 := by
  have hbg : afbBackground vb .dark v = toHexString (hslToRgb
      ⟨(rgbToHsl (tcParse vb)).h, min (rgbToHsl (tcParse vb)).s (1 / 5), 2 / 25⟩) := rfl
  rw [hbg, hexToRgb_toHexString (hslToRgb_valid _)]
  obtain ⟨hs0, hs1, hl0, hl1⟩ := rgbToHsl_sl_mem (tcParse vb)
  have hup := hslToRgb_channels_le
    (x := ⟨(rgbToHsl (tcParse vb)).h, min (rgbToHsl (tcParse vb)).s (1 / 5), 2 / 25⟩)
    (by
      dsimp only
      rw [clamp01_of_mem (by norm_num) (by norm_num)]
      norm_num)
  dsimp only at hup
  rw [clamp01_of_mem (by norm_num) (by norm_num)] at hup
  have hsclamp : clamp01 (min (rgbToHsl (tcParse vb)).s (1 / 5)) ≤ 1 / 5 :=
    clamp01_le_of_le (min_le_right _ _) (by norm_num)
  obtain ⟨hcl0, hcl1⟩ := clamp01_mem (min (rgbToHsl (tcParse vb)).s (1 / 5))
  unfold roundRGB
  dsimp only
  have hcast : ((24 : ℤ) : ℚ) = 24 := by norm_num
  refine ⟨jsRoundQ_le_of ?_, jsRoundQ_le_of ?_, jsRoundQ_le_of ?_⟩ <;> rw [hcast] <;>
    nlinarith [hup.1, hup.2.1, hup.2.2]

theorem afb_light_bg_channels (vb : List Char) (v : Vibe) :
    241 ≤ (hexToRgb (afbBackground vb .light v)).r ∧
    241 ≤ (hexToRgb (afbBackground vb .light v)).g ∧
    241 ≤ (hexToRgb (afbBackground vb .light v)).b := by
  have hbg : afbBackground vb .light v = toHexString (hslToRgb
      ⟨(rgbToHsl (tcParse vb)).h, min (rgbToHsl (tcParse vb)).s (1 / 10), 49 / 50⟩) := rfl
  rw [hbg, hexToRgb_toHexString (hslToRgb_valid _)]
  obtain ⟨hs0, hs1, hl0, hl1⟩ := rgbToHsl_sl_mem (tcParse vb)
  have hlow := le_hslToRgb_channels
    (x := ⟨(rgbToHsl (tcParse vb)).h, min (rgbToHsl (tcParse vb)).s (1 / 10), 49 / 50⟩)
    (by
      dsimp only
      rw [clamp01_of_mem (by norm_num) (by norm_num)]
      norm_num)
  dsimp only at hlow
  rw [clamp01_of_mem (by norm_num) (by norm_num)] at hlow
  have hsclamp : clamp01 (min (rgbToHsl (tcParse vb)).s (1 / 10)) ≤ 1 / 10 :=
    clamp01_le_of_le (min_le_right _ _) (by norm_num)
  obtain ⟨hcl0, hcl1⟩ := clamp01_mem (min (rgbToHsl (tcParse vb)).s (1 / 10))
  unfold roundRGB
  dsimp only
  have hcast : ((241 : ℤ) : ℚ) = 241 := by norm_num
  refine ⟨le_jsRoundQ_of ?_, le_jsRoundQ_of ?_, le_jsRoundQ_of ?_⟩ <;> rw [hcast] <;>
    nlinarith [hlow.1, hlow.2.1, hlow.2.2]

end ColorHash

namespace ColorHash

/-! ## Behavior of the `ensureContrast` loop: reachable targets are met,
unreachable ones end at the extremal iterate -/

theorem ecLoop_met_of_reachable {bg : ColorRGB} {target : ℝ} {dark : Bool} :
    ∀ {n : ℕ} {c : RGBQ},
      (∃ k ≤ n, ¬ readability (roundRGB ((ecStep dark)^[k] c)) bg < target) →
      ¬ readability (roundRGB (ecLoop bg target dark n c)) bg < target := by
  intro n
  induction n with
  | zero =>
    intro c h
    obtain ⟨k, hk, hmet⟩ := h
    have hk0 : k = 0 := by omega
    subst hk0
    show ¬ readability (roundRGB c) bg < target
    simpa using hmet
  | succ n ih =>
    intro c h
    unfold ecLoop
    split_ifs with hcond
    · obtain ⟨k, hk, hmet⟩ := h
      cases k with
      | zero => exact absurd (by simpa using hcond) hmet
      | succ k2 =>
        refine ih ⟨k2, by omega, ?_⟩
        rw [← Function.iterate_succ_apply]
        exact hmet
    · exact hcond

theorem ensureContrast_met_of_reachable (cand bg : List Char) (target : ℝ)
    (h : ∃ k ≤ 100, target ≤ readability (roundRGB ((ecStep (tcIsDark (hexToRgb bg)))^[k]
      (ofColorRGB (hexToRgb cand)))) (hexToRgb bg)) :
    target ≤ readability (hexToRgb (ensureContrast cand bg target)) (hexToRgb bg) := by
  unfold ensureContrast
  split_ifs with h0
  · exact h0
  · have hvalid : validQ (ecLoop (hexToRgb bg) target (tcIsDark (hexToRgb bg)) 100
        (ofColorRGB (hexToRgb cand))) := by
      rw [ecLoop_eq_iterate]
      exact iterate_ecStep_valid _ (ofColorRGB_valid (hexToRgb_valid _)) _
    rw [hexToRgb_toHexString hvalid]
    refine not_lt.mp (ecLoop_met_of_reachable ?_)
    obtain ⟨k, hk, hmet⟩ := h
    exact ⟨k, hk, not_lt.mpr hmet⟩

theorem ensureContrast_max_dark {cand bg : List Char} {target : ℝ}
    (hdark : tcIsDark (hexToRgb bg) = true)
    (hbgL : luminance (hexToRgb bg) ≤ 1 / 100)
    (hcand : 112 ≤ (hexToRgb cand).r ∧ 112 ≤ (hexToRgb cand).g ∧ 112 ≤ (hexToRgb cand).b)
    (hunreach : ∀ k ≤ 100, readability (roundRGB ((ecStep true)^[k]
      (ofColorRGB (hexToRgb cand)))) (hexToRgb bg) < target) :
    ∀ j ≤ 100, readability (roundRGB ((ecStep true)^[j] (ofColorRGB (hexToRgb cand))))
        (hexToRgb bg)
      ≤ readability (hexToRgb (ensureContrast cand bg target)) (hexToRgb bg) := by
  intro j hj
  have hc0valid : validQ (ofColorRGB (hexToRgb cand)) := ofColorRGB_valid (hexToRgb_valid _)
  have hch : ∀ n : ℕ,
      112 ≤ (roundRGB ((ecStep true)^[n] (ofColorRGB (hexToRgb cand)))).r ∧
      112 ≤ (roundRGB ((ecStep true)^[n] (ofColorRGB (hexToRgb cand)))).g ∧
      112 ≤ (roundRGB ((ecStep true)^[n] (ofColorRGB (hexToRgb cand)))).b := by
    intro n
    have hge := iterate_ecStep_true_mono hc0valid (Nat.zero_le n)
    simp only [Function.iterate_zero_apply] at hge
    have hb1 : (112 : ℚ) ≤ (ofColorRGB (hexToRgb cand)).r := by
      unfold ofColorRGB
      dsimp only
      exact_mod_cast hcand.1
    have hb2 : (112 : ℚ) ≤ (ofColorRGB (hexToRgb cand)).g := by
      unfold ofColorRGB
      dsimp only
      exact_mod_cast hcand.2.1
    have hb3 : (112 : ℚ) ≤ (ofColorRGB (hexToRgb cand)).b := by
      unfold ofColorRGB
      dsimp only
      exact_mod_cast hcand.2.2
    unfold roundRGB
    dsimp only
    have h112 : ((112 : ℤ) : ℚ) = 112 := by norm_num
    refine ⟨le_jsRoundQ_of ?_, le_jsRoundQ_of ?_, le_jsRoundQ_of ?_⟩ <;> rw [h112]
    · linarith [hge.1]
    · linarith [hge.2.1]
    · linarith [hge.2.2]
  have hvalids : ∀ n : ℕ,
      validC (roundRGB ((ecStep true)^[n] (ofColorRGB (hexToRgb cand)))) :=
    fun n => roundRGB_valid (iterate_ecStep_valid true hc0valid n)
  have hlum : ∀ n : ℕ,
      3 / 20 ≤ luminance (roundRGB ((ecStep true)^[n] (ofColorRGB (hexToRgb cand)))) :=
    fun n => le_luminance_of_channels_ge_112 (hvalids n) (hch n)
  have hLbg0 : 0 ≤ luminance (hexToRgb bg) := (luminance_mem (hexToRgb_valid bg)).1
  unfold ensureContrast
  rw [if_neg (not_le.mpr (by
    have h0 := hunreach 0 (by norm_num)
    simpa [roundRGB_ofColorRGB] using h0))]
  rw [hdark, ecLoop_eq_iterate_of_path_lt (fun k hk => hunreach k (le_of_lt hk))]
  have hval100 : validQ ((ecStep true)^[100] (ofColorRGB (hexToRgb cand))) :=
    iterate_ecStep_valid true hc0valid 100
  rw [hexToRgb_toHexString hval100]
  refine readability_left_mono hLbg0 ?_ ?_
  · calc luminance (hexToRgb bg) ≤ 1 / 100 := hbgL
      _ ≤ 3 / 20 := by norm_num
      _ ≤ _ := hlum j
  · refine luminance_mono (hvalids j) (hvalids 100) ?_
    have hmono := iterate_ecStep_true_mono hc0valid hj
    unfold roundRGB
    dsimp only
    exact ⟨jsRoundQ_mono hmono.1, jsRoundQ_mono hmono.2.1, jsRoundQ_mono hmono.2.2⟩

theorem ensureContrast_max_light {cand bg : List Char} {target : ℝ}
    (hdark : tcIsDark (hexToRgb bg) = false)
    (hbgL : 17 / 20 ≤ luminance (hexToRgb bg))
    (hcand : (hexToRgb cand).r ≤ 143 ∧ (hexToRgb cand).g ≤ 143 ∧ (hexToRgb cand).b ≤ 143)
    (hunreach : ∀ k ≤ 100, readability (roundRGB ((ecStep false)^[k]
      (ofColorRGB (hexToRgb cand)))) (hexToRgb bg) < target) :
    ∀ j ≤ 100, readability (roundRGB ((ecStep false)^[j] (ofColorRGB (hexToRgb cand))))
        (hexToRgb bg)
      ≤ readability (hexToRgb (ensureContrast cand bg target)) (hexToRgb bg) := by
  intro j hj
  have hc0valid : validQ (ofColorRGB (hexToRgb cand)) := ofColorRGB_valid (hexToRgb_valid _)
  have hch : ∀ n : ℕ,
      (roundRGB ((ecStep false)^[n] (ofColorRGB (hexToRgb cand)))).r ≤ 143 ∧
      (roundRGB ((ecStep false)^[n] (ofColorRGB (hexToRgb cand)))).g ≤ 143 ∧
      (roundRGB ((ecStep false)^[n] (ofColorRGB (hexToRgb cand)))).b ≤ 143 := by
    intro n
    have hle := iterate_ecStep_false_anti hc0valid (Nat.zero_le n)
    simp only [Function.iterate_zero_apply] at hle
    have hb1 : (ofColorRGB (hexToRgb cand)).r ≤ 143 := by
      unfold ofColorRGB
      dsimp only
      exact_mod_cast hcand.1
    have hb2 : (ofColorRGB (hexToRgb cand)).g ≤ 143 := by
      unfold ofColorRGB
      dsimp only
      exact_mod_cast hcand.2.1
    have hb3 : (ofColorRGB (hexToRgb cand)).b ≤ 143 := by
      unfold ofColorRGB
      dsimp only
      exact_mod_cast hcand.2.2
    unfold roundRGB
    dsimp only
    have h143 : ((143 : ℤ) : ℚ) = 143 := by norm_num
    refine ⟨jsRoundQ_le_of ?_, jsRoundQ_le_of ?_, jsRoundQ_le_of ?_⟩ <;> rw [h143]
    · linarith [hle.1]
    · linarith [hle.2.1]
    · linarith [hle.2.2]
  have hvalids : ∀ n : ℕ,
      validC (roundRGB ((ecStep false)^[n] (ofColorRGB (hexToRgb cand)))) :=
    fun n => roundRGB_valid (iterate_ecStep_valid false hc0valid n)
  have hlum : ∀ n : ℕ,
      luminance (roundRGB ((ecStep false)^[n] (ofColorRGB (hexToRgb cand)))) ≤ 3 / 10 :=
    fun n => luminance_le_of_channels_le_143 (hvalids n) (hch n)
  unfold ensureContrast
  rw [if_neg (not_le.mpr (by
    have h0 := hunreach 0 (by norm_num)
    simpa [roundRGB_ofColorRGB] using h0))]
  rw [hdark, ecLoop_eq_iterate_of_path_lt (fun k hk => hunreach k (le_of_lt hk))]
  have hval100 : validQ ((ecStep false)^[100] (ofColorRGB (hexToRgb cand))) :=
    iterate_ecStep_valid false hc0valid 100
  rw [hexToRgb_toHexString hval100]
  refine readability_left_anti (luminance_mem (hvalids 100)).1 ?_ ?_
  · refine luminance_mono (hvalids 100) (hvalids j) ?_
    have hmono := iterate_ecStep_false_anti hc0valid hj
    unfold roundRGB
    dsimp only
    exact ⟨jsRoundQ_mono hmono.1, jsRoundQ_mono hmono.2.1, jsRoundQ_mono hmono.2.2⟩
  · calc luminance (roundRGB ((ecStep false)^[j] (ofColorRGB (hexToRgb cand))))
        ≤ 3 / 10 := hlum j
      _ ≤ 17 / 20 := by norm_num
      _ ≤ _ := hbgL

end ColorHash

namespace ColorHash

/-! ## Claim C7: text-slot contrast in `applyFromBase` -/

theorem afb_slot_spec {cand bg slot : List Char} {threshold : ℝ}
    (hslot : slot = ensureContrast cand bg threshold)
    (hside : (tcIsDark (hexToRgb bg) = true ∧ luminance (hexToRgb bg) ≤ 1 / 100 ∧
        (112 ≤ (hexToRgb cand).r ∧ 112 ≤ (hexToRgb cand).g ∧ 112 ≤ (hexToRgb cand).b)) ∨
      (tcIsDark (hexToRgb bg) = false ∧ 17 / 20 ≤ luminance (hexToRgb bg) ∧
        ((hexToRgb cand).r ≤ 143 ∧ (hexToRgb cand).g ≤ 143 ∧ (hexToRgb cand).b ≤ 143))) :
    ((∃ k ≤ 100, threshold ≤ readability (roundRGB ((ecStep (tcIsDark (hexToRgb bg)))^[k]
        (ofColorRGB (hexToRgb cand)))) (hexToRgb bg)) →
      threshold ≤ readability (hexToRgb slot) (hexToRgb bg)) ∧
    ((∀ k ≤ 100, readability (roundRGB ((ecStep (tcIsDark (hexToRgb bg)))^[k]
        (ofColorRGB (hexToRgb cand)))) (hexToRgb bg) < threshold) →
      ∀ j ≤ 100, readability (roundRGB ((ecStep (tcIsDark (hexToRgb bg)))^[j]
        (ofColorRGB (hexToRgb cand)))) (hexToRgb bg)
        ≤ readability (hexToRgb slot) (hexToRgb bg)) := by
  subst hslot
  constructor
  · exact ensureContrast_met_of_reachable cand bg threshold
  · intro hunreach j hj
    rcases hside with ⟨hd, hL, hc⟩ | ⟨hd, hL, hc⟩
    · rw [hd] at hunreach ⊢
      exact ensureContrast_max_dark hd hL hc hunreach j hj
    · rw [hd] at hunreach ⊢
      exact ensureContrast_max_light hd hL hc hunreach j hj

theorem afb_text_slots_spec (hex : List Char) (vibe : Vibe)
    (brightness : BrightnessPref) (threshold : ℝ)
    (hbgfacts : (tcIsDark (hexToRgb (afbBackground (applyVibeToPalette hex vibe).base
          brightness vibe)) = true ∧
        luminance (hexToRgb (afbBackground (applyVibeToPalette hex vibe).base
          brightness vibe)) ≤ 1 / 100) ∨
      (tcIsDark (hexToRgb (afbBackground (applyVibeToPalette hex vibe).base
          brightness vibe)) = false ∧
        17 / 20 ≤ luminance (hexToRgb (afbBackground (applyVibeToPalette hex vibe).base
          brightness vibe)))) :
    ∀ p ∈ [((applyFromBase hex vibe brightness threshold).textHeading,
            afbHeadingCandidate (applyVibeToPalette hex vibe).base
              (tcIsDark (hexToRgb (afbBackground (applyVibeToPalette hex vibe).base
                brightness vibe)))),
           ((applyFromBase hex vibe brightness threshold).textBody,
            afbBodyCandidate (applyVibeToPalette hex vibe).base
              (tcIsDark (hexToRgb (afbBackground (applyVibeToPalette hex vibe).base
                brightness vibe))))],
      ((∃ k ≤ 100, threshold ≤ readability (roundRGB
          ((ecStep (tcIsDark (hexToRgb (afbBackground (applyVibeToPalette hex vibe).base
            brightness vibe))))^[k] (ofColorRGB (hexToRgb p.2))))
          (hexToRgb (afbBackground (applyVibeToPalette hex vibe).base brightness vibe))) →
        threshold ≤ readability (hexToRgb p.1)
          (hexToRgb (afbBackground (applyVibeToPalette hex vibe).base brightness vibe))) ∧
      ((∀ k ≤ 100, readability (roundRGB
          ((ecStep (tcIsDark (hexToRgb (afbBackground (applyVibeToPalette hex vibe).base
            brightness vibe))))^[k] (ofColorRGB (hexToRgb p.2))))
          (hexToRgb (afbBackground (applyVibeToPalette hex vibe).base brightness vibe))
          < threshold) →
        ∀ j ≤ 100, readability (roundRGB
          ((ecStep (tcIsDark (hexToRgb (afbBackground (applyVibeToPalette hex vibe).base
            brightness vibe))))^[j] (ofColorRGB (hexToRgb p.2))))
          (hexToRgb (afbBackground (applyVibeToPalette hex vibe).base brightness vibe))
          ≤ readability (hexToRgb p.1)
            (hexToRgb (afbBackground (applyVibeToPalette hex vibe).base brightness vibe))) := by
  intro p hp
  have hmem := hp
  simp only [List.mem_cons, List.not_mem_nil, or_false] at hmem
  rcases hmem with hp2 | hp2
  · subst hp2
    dsimp only
    refine afb_slot_spec rfl ?_
    rcases hbgfacts with ⟨hd, hL⟩ | ⟨hd, hL⟩
    · refine Or.inl ⟨hd, hL, ?_⟩
      rw [hd, afbHeadingCandidate_dark_eq]
      exact tints_candidate_ge (by norm_num)
    · refine Or.inr ⟨hd, hL, ?_⟩
      rw [hd, afbHeadingCandidate_light_eq]
      exact shades_candidate_le (by norm_num)
  · subst hp2
    dsimp only
    refine afb_slot_spec rfl ?_
    rcases hbgfacts with ⟨hd, hL⟩ | ⟨hd, hL⟩
    · refine Or.inl ⟨hd, hL, ?_⟩
      rw [hd, afbBodyCandidate_dark_eq]
      exact tints_candidate_ge (by norm_num)
    · refine Or.inr ⟨hd, hL, ?_⟩
      rw [hd, afbBodyCandidate_light_eq]
      exact shades_candidate_le (by norm_num)

/-- C7: for every role-assignment request (base color, vibe, brightness
preference, target contrast ratio), each of the two text slots emitted by
`applyFromBase` — `textHeading` from ramp index 7 and `textBody` from ramp
index 5, tints when the constructed background is dark and shades
otherwise — satisfies contrast ratio at least the target against the
background whenever that target is reachable within 100 unit
lightening/darkening steps from the slot's ramp candidate; otherwise the
slot's ratio is the maximum ratio achieved among all 100 steps. -/
theorem C7_text_contrast_ensured (hex : List Char) (vibe : Vibe)
    (brightness : BrightnessPref) (threshold : ℝ) :
    ∀ p ∈ [((applyFromBase hex vibe brightness threshold).textHeading,
            afbHeadingCandidate (applyVibeToPalette hex vibe).base
              (tcIsDark (hexToRgb (afbBackground (applyVibeToPalette hex vibe).base
                brightness vibe)))),
           ((applyFromBase hex vibe brightness threshold).textBody,
            afbBodyCandidate (applyVibeToPalette hex vibe).base
              (tcIsDark (hexToRgb (afbBackground (applyVibeToPalette hex vibe).base
                brightness vibe))))],
      ((∃ k ≤ 100, threshold ≤ readability (roundRGB
          ((ecStep (tcIsDark (hexToRgb (afbBackground (applyVibeToPalette hex vibe).base
            brightness vibe))))^[k] (ofColorRGB (hexToRgb p.2))))
          (hexToRgb (afbBackground (applyVibeToPalette hex vibe).base brightness vibe))) →
        threshold ≤ readability (hexToRgb p.1)
          (hexToRgb (afbBackground (applyVibeToPalette hex vibe).base brightness vibe))) ∧
      ((∀ k ≤ 100, readability (roundRGB
          ((ecStep (tcIsDark (hexToRgb (afbBackground (applyVibeToPalette hex vibe).base
            brightness vibe))))^[k] (ofColorRGB (hexToRgb p.2))))
          (hexToRgb (afbBackground (applyVibeToPalette hex vibe).base brightness vibe))
          < threshold) →
        ∀ j ≤ 100, readability (roundRGB
          ((ecStep (tcIsDark (hexToRgb (afbBackground (applyVibeToPalette hex vibe).base
            brightness vibe))))^[j] (ofColorRGB (hexToRgb p.2))))
          (hexToRgb (afbBackground (applyVibeToPalette hex vibe).base brightness vibe))
          ≤ readability (hexToRgb p.1)
            (hexToRgb (afbBackground (applyVibeToPalette hex vibe).base brightness vibe))) := by
  cases brightness with
  | light =>
    refine afb_text_slots_spec hex vibe .light threshold ?_
    have hch := afb_light_bg_channels (applyVibeToPalette hex vibe).base vibe
    exact Or.inr ⟨tcIsDark_false_of_channels_ge_241 hch,
      le_luminance_of_channels_ge_241 (hexToRgb_valid _) hch⟩
  | dark =>
    refine afb_text_slots_spec hex vibe .dark threshold ?_
    have hch := afb_dark_bg_channels (applyVibeToPalette hex vibe).base vibe
    exact Or.inl ⟨tcIsDark_of_channels_le_24 hch,
      luminance_le_of_channels_le_24 (hexToRgb_valid _) hch⟩
  | mixed =>
    refine afb_text_slots_spec hex vibe .mixed threshold ?_
    have hch : 241 ≤ (hexToRgb (afbBackground (applyVibeToPalette hex vibe).base
          .mixed vibe)).r ∧
        241 ≤ (hexToRgb (afbBackground (applyVibeToPalette hex vibe).base .mixed vibe)).g ∧
        241 ≤ (hexToRgb (afbBackground (applyVibeToPalette hex vibe).base .mixed vibe)).b := by
      simp only [afbBackground]
      split_ifs <;> decide
    exact Or.inr ⟨tcIsDark_false_of_channels_ge_241 hch,
      le_luminance_of_channels_ge_241 (hexToRgb_valid _) hch⟩

/-- Witness for C7 at the concrete request (base black, serious vibe, mixed
brightness, target ratio 1): the heading slot meets the target, discharging
the reachability hypothesis at step 0, since every contrast ratio is at
least 1. -/
theorem C7_text_contrast_ensured_witness :
    1 ≤ readability
      (hexToRgb ((applyFromBase ("#000000".data) .serious .mixed 1).textHeading))
      (hexToRgb (afbBackground ((applyVibeToPalette ("#000000".data) .serious).base)
        .mixed .serious)) := by
  have h := C7_text_contrast_ensured ("#000000".data) .serious .mixed 1
    (((applyFromBase ("#000000".data) .serious .mixed 1).textHeading,
      afbHeadingCandidate ((applyVibeToPalette ("#000000".data) .serious).base)
        (tcIsDark (hexToRgb (afbBackground ((applyVibeToPalette ("#000000".data)
          .serious).base) .mixed .serious)))))
    (List.mem_cons_self _ _)
  refine h.1 ⟨0, by norm_num, ?_⟩
  simp only [Function.iterate_zero_apply, roundRGB_ofColorRGB]
  exact one_le_readability (hexToRgb_valid _) (hexToRgb_valid _)

end ColorHash
